import Mathlib

/-!
Verification of the Chat2Cash storage layer, invoice engine and LLM client.

The definitions below are a shallow embedding of the TypeScript source:

* the storage methods of `DatabaseStorage` (src/unnamed/part_016) become pure
  functions on an explicit `DB` state (lists of table rows, drizzle selects
  become filters, updates become maps, transactions are atomic state steps);
* `generateInvoiceData` (src/services/invoiceService.ts) is modelled over `ℚ`
  with explicit half-up rounding to two decimal places (Decimal.js is
  configured with `ROUND_HALF_UP`; its 20-significant-digit precision never
  binds at invoice magnitudes);
* `applySlidingWindow`, `calculateBackoff`, the retry loop of
  `extractWithTool` and the payload coercions of `extractOrderFromMessage` /
  `extractOrderFromChat` (src/services/anthropicService.ts) become functions
  over explicit attempt outcomes and payload records.

JavaScript peculiarities that the source relies on are modelled explicitly:
`x || y` treats `""` and `0` as falsy, `Number(missing)` is NaN (modelled as
`none`), `Number(null)` is `0`, and object fields that may be absent are
`Option`s.  Nondeterministic inputs (`randomUUID()`, `new Date()`,
`Math.random()`) are threaded as explicit parameters.
-/

namespace Chat2Cash

/-- A chat message as in the shared schema: a sender and a text. -/
structure ChatMessage where
  sender : String
  text : String
deriving DecidableEq, Repr

/-- A JS item object as it appears in tool payloads, JSONB columns and mapped
records.  Every field is optional: reading an absent property yields
`undefined`, modelled as `none`.  Single-message items use
`name`/`unit`/`pricePerUnit`/`totalPrice`; chat items use
`product_name`/`price`; `quantity` is shared. -/
structure ItemVal where
  name : Option String := none
  product_name : Option String := none
  quantity : Option ℚ := none
  unit : Option String := none
  pricePerUnit : Option ℚ := none
  price : Option ℚ := none
  totalPrice : Option ℚ := none
deriving DecidableEq, Repr

/-- One line of a generated invoice (invoiceService.ts). -/
structure InvoiceItem where
  product_name : Option String
  quantity : ℚ
  price : ℚ
  amount : ℚ
deriving DecidableEq, Repr

/-- The embedded invoice value attached to an order. -/
structure Invoice where
  invoice_number : String
  date : String
  customer_name : String
  items : List InvoiceItem
  subtotal : ℚ
  cgst : ℚ
  sgst : ℚ
  igst : Option ℚ
  total : ℚ
  business_name : String
  gst_number : String
deriving DecidableEq, Repr

/-- The `rawMessages` JSONB column: `addOrder` stores a plain string,
`addChatOrder` stores the message array. -/
inductive RawMsgs where
  | str (s : String)
  | arr (ms : List ChatMessage)
deriving DecidableEq, Repr

/-- The `confidence` text column: single-message orders store a stringified
number (`num (some q)`; `num none` models NaN), chat orders store one of the
enum strings `"high" | "medium" | "low"`. -/
inductive ConfVal where
  | num (q : Option ℚ)
  | str (s : String)
deriving DecidableEq, Repr

/-- The domain record for a single-message order (shared schema
`ExtractedOrder`). -/
structure ExtractedOrder where
  id : String
  customerName : Option String := none
  customerPhone : Option String := none
  items : List ItemVal := []
  totalAmount : Option ℚ := none
  currency : String := "INR"
  notes : Option String := none
  rawMessage : Option String := none
  confidence : Option ℚ := none
  status : String := "pending"
  createdAt : String := ""
deriving DecidableEq, Repr

/-- The domain record for a chat order (shared schema `ExtractedChatOrder`). -/
structure ExtractedChatOrder where
  id : String
  customer_name : Option String := none
  items : List ItemVal := []
  delivery_address : Option String := none
  delivery_date : Option String := none
  special_instructions : Option String := none
  total : Option ℚ := none
  confidence : Option ConfVal := none
  status : String := "pending"
  created_at : String := ""
  raw_messages : Option RawMsgs := none
  invoice : Option Invoice := none
deriving DecidableEq, Repr

/-- A row of `customersTable`. -/
structure CustomerRow where
  id : String
  organizationId : String
  name : String
  phone : Option String := none
deriving DecidableEq, Repr

/-- A row of `ordersTable` (src/schema.ts). -/
structure OrderRow where
  id : String
  organizationId : String
  customerId : String
  extractionType : String
  itemsJson : Option (List ItemVal) := none
  rawAiResponse : Option (List ItemVal) := none
  totalAmount : Option ℚ := none
  currency : Option String := none
  deliveryAddress : Option String := none
  deliveryDate : Option String := none
  specialInstructions : Option String := none
  rawMessages : Option RawMsgs := none
  confidence : Option ConfVal := none
  status : String := "pending"
  createdAt : String := ""
  invoice : Option Invoice := none
  invoiceSequence : Option Nat := none
  deletedAt : Option String := none
deriving DecidableEq, Repr

/-- A row of `orderItemsTable`. -/
structure ItemRow where
  id : String
  orderId : String
  organizationId : String
  productName : Option String := none
  quantity : Option ℚ := none
  unit : Option String := none
  pricePerUnit : Option ℚ := none
  totalPrice : Option ℚ := none
deriving DecidableEq, Repr

/-- The database state: the three tables the storage layer touches. -/
structure DB where
  orders : List OrderRow := []
  customers : List CustomerRow := []
  orderItems : List ItemRow := []
deriving DecidableEq, Repr

/-- JS `x || undefined` on a nullable string: null and `""` are falsy. -/
def truthyStr : Option String → Option String
  | some s => if s = "" then none else some s
  | none => none

/-- JS `x || undefined` on a nullable number: null and `0` are falsy. -/
def truthyQ : Option ℚ → Option ℚ
  | some q => if q = 0 then none else some q
  | none => none

/-- JS `s || d` for a nullable string with a default. -/
def strOrDefault (s : Option String) (d : String) : String :=
  match s with
  | some v => if v = "" then d else v
  | none => d

/-- The text join of `rawMessages.map(m => m.text).join('\n')`. -/
def joinTexts (ms : List ChatMessage) : String :=
  String.intercalate "\n" (ms.map (fun m => m.text))

/-- The single-message shape an `orderItemsTable` row is mapped to inside
`mapToExtractedOrder` (the `?? undefined` coalescing is the identity on
nullable columns). -/
def itemRowToSingleVal (i : ItemRow) : ItemVal :=
  { name := i.productName, quantity := i.quantity, unit := i.unit,
    pricePerUnit := i.pricePerUnit, totalPrice := i.totalPrice }

/-- The chat shape an `orderItemsTable` row is mapped to inside
`mapToExtractedChatOrder` (`price: i.pricePerUnit ?? null`). -/
def itemRowToChatVal (i : ItemRow) : ItemVal :=
  { product_name := i.productName, quantity := i.quantity, price := i.pricePerUnit }

/-- Row mapper `mapToExtractedOrder(orderRow, customerRow, itemRows)`.  The
customer may be absent (`customerRow?.name`).  `Number` of the chat
confidence enum strings is NaN (`none`); `Number(null)` is `0`. -/
def mapToExtractedOrder (o : OrderRow) (c : Option CustomerRow) (itemRows : List ItemRow) :
    ExtractedOrder :=
  { id := o.id
    customerName := truthyStr (c.map (fun cr => cr.name))
    customerPhone := truthyStr (c.bind (fun cr => cr.phone))
    items := if itemRows.length > 0 then itemRows.map itemRowToSingleVal
             else o.rawAiResponse.getD []
    totalAmount := truthyQ o.totalAmount
    currency := strOrDefault o.currency "INR"
    notes := truthyStr o.specialInstructions
    rawMessage := match o.rawMessages with
      | some (.arr ms) => some (joinTexts ms)
      | some (.str s) => some s
      | none => none
    confidence := match o.confidence with
      | some (.num q) => q
      | some (.str _) => none
      | none => some 0
    status := o.status
    createdAt := o.createdAt }

/-- Row mapper `mapToExtractedChatOrder(orderRow, customerRow, itemRows)`. -/
def mapToExtractedChatOrder (o : OrderRow) (c : Option CustomerRow) (itemRows : List ItemRow) :
    ExtractedChatOrder :=
  { id := o.id
    customer_name := truthyStr (c.map (fun cr => cr.name))
    items := if itemRows.length > 0 then itemRows.map itemRowToChatVal
             else o.rawAiResponse.getD []
    delivery_address := truthyStr o.deliveryAddress
    delivery_date := truthyStr o.deliveryDate
    special_instructions := truthyStr o.specialInstructions
    total := truthyQ o.totalAmount
    confidence := o.confidence
    status := o.status
    created_at := o.createdAt
    raw_messages := o.rawMessages
    invoice := o.invoice }

/-- The `id = $oid AND organizationId = $org AND deletedAt IS NULL` predicate
used by every tenant-scoped read and guarded update. -/
def liveScope (org oid : String) (r : OrderRow) : Bool :=
  r.id == oid && r.organizationId == org && r.deletedAt.isNone

/-- Customer lookup by primary key (`eq(customersTable.id, cid)`). -/
def findCustomer (s : DB) (cid : String) : Option CustomerRow :=
  s.customers.find? (fun c => c.id == cid)

/-- The order-customer inner join scoped to `org`, live rows only. -/
def selectOrderJoin (s : DB) (org oid : String) : List (OrderRow × CustomerRow) :=
  (s.orders.filter (liveScope org oid)).filterMap
    (fun r => (findCustomer s r.customerId).map (fun c => (r, c)))

/-- All `orderItemsTable` rows of one order. -/
def itemsOf (s : DB) (oid : String) : List ItemRow :=
  s.orderItems.filter (fun i => i.orderId == oid)

/-- `DatabaseStorage.getOrder(orgId, id)`. -/
def getOrder (s : DB) (org oid : String) : Option ExtractedOrder :=
  match selectOrderJoin s org oid with
  | [] => none
  | (r, c) :: _ => some (mapToExtractedOrder r (some c) (itemsOf s oid))

/-- `DatabaseStorage.getChatOrder(orgId, id)`. -/
def getChatOrder (s : DB) (org oid : String) : Option ExtractedChatOrder :=
  match selectOrderJoin s org oid with
  | [] => none
  | (r, c) :: _ => some (mapToExtractedChatOrder r (some c) (itemsOf s oid))

/-- `DatabaseStorage.addOrder(orgId, order)`.  `customerId` and `itemIds` are
the values drawn from `randomUUID()`. -/
def addOrder (s : DB) (org : String) (order : ExtractedOrder)
    (customerId : String) (itemIds : List String) : DB × ExtractedOrder :=
  let customer : CustomerRow :=
    { id := customerId, organizationId := org,
      name := strOrDefault order.customerName "Unknown Customer",
      phone := truthyStr order.customerPhone }
  let newOrder : OrderRow :=
    { id := order.id, organizationId := org, customerId := customerId,
      extractionType := "single_message",
      rawAiResponse := some order.items,
      totalAmount := order.totalAmount,
      currency := some order.currency,
      specialInstructions := order.notes,
      rawMessages := order.rawMessage.map RawMsgs.str,
      confidence := some (.num order.confidence),
      status := order.status,
      createdAt := order.createdAt }
  let itemRows : List ItemRow :=
    if order.items.length > 0 then
      (order.items.zip itemIds).map (fun pair =>
        { id := pair.2, orderId := newOrder.id, organizationId := org,
          productName := pair.1.name, quantity := pair.1.quantity, unit := pair.1.unit,
          pricePerUnit := pair.1.pricePerUnit, totalPrice := pair.1.totalPrice })
    else []
  let s' : DB := { s with customers := s.customers ++ [customer],
                          orders := s.orders ++ [newOrder],
                          orderItems := s.orderItems ++ itemRows }
  (s', mapToExtractedOrder newOrder (some customer) itemRows)

/-- `DatabaseStorage.updateOrderStatus(orgId, id, status)`. -/
def updateOrderStatus (s : DB) (org oid status : String) : DB × Option ExtractedOrder :=
  let orders' := s.orders.map (fun r =>
    if liveScope org oid r then { r with status := status } else r)
  let s' : DB := { s with orders := orders' }
  match s.orders.filter (liveScope org oid) with
  | [] => (s', none)
  | r :: _ =>
    let u := { r with status := status }
    (s', some (mapToExtractedOrder u (findCustomer s u.customerId) (itemsOf s oid)))

/-- `DatabaseStorage.deleteOrder(orgId, id)`: soft delete, the predicate does
not re-check `deletedAt`; `now` is `new Date().toISOString()`. -/
def deleteOrder (s : DB) (org oid now : String) : DB × Bool :=
  let cond := fun (r : OrderRow) => r.id == oid && r.organizationId == org
  let orders' := s.orders.map (fun r => if cond r then { r with deletedAt := some now } else r)
  ({ s with orders := orders' }, s.orders.any cond)

/-- The customer lookup conditions of `addChatOrder`: always
`organizationId = org`, plus the name only when `order.customer_name` is
truthy. -/
def lookupMatches (org : String) (nm : Option String) (c : CustomerRow) : Bool :=
  c.organizationId == org &&
    (match nm with
     | some n => if n = "" then true else c.name == n
     | none => true)

/-- `DatabaseStorage.addChatOrder(orgId, order)`.  `newCustomerId` is the
`randomUUID()` used when no existing customer matches.  Note: chat items are
stored in the `items` JSONB column; no `orderItemsTable` rows are written,
and the returned record is mapped with an empty item-row list. -/
def addChatOrder (s : DB) (org : String) (order : ExtractedChatOrder)
    (newCustomerId : String) : DB × ExtractedChatOrder :=
  let existing := s.customers.find? (lookupMatches org order.customer_name)
  let customerId := match existing with | some c => c.id | none => newCustomerId
  let customers' := match existing with
    | some _ => s.customers
    | none => s.customers ++
        [{ id := newCustomerId, organizationId := org,
           name := strOrDefault order.customer_name "Unknown Customer" }]
  let newOrder : OrderRow :=
    { id := order.id, organizationId := org, customerId := customerId,
      extractionType := "chat_log",
      itemsJson := some order.items,
      totalAmount := order.total,
      deliveryAddress := order.delivery_address,
      deliveryDate := order.delivery_date,
      specialInstructions := order.special_instructions,
      rawMessages := order.raw_messages,
      confidence := order.confidence,
      status := order.status,
      createdAt := order.created_at }
  let s' : DB := { s with customers := customers', orders := s.orders ++ [newOrder] }
  let customer := customers'.find? (fun c => c.id == customerId)
  (s', mapToExtractedChatOrder newOrder customer [])

/-- `DatabaseStorage.attachInvoice(orgId, orderId, invoice)`: sets only the
`invoice` column on the scoped live row. -/
def attachInvoice (s : DB) (org oid : String) (inv : Invoice) : DB × Option ExtractedChatOrder :=
  let orders' := s.orders.map (fun r =>
    if liveScope org oid r then { r with invoice := some inv } else r)
  let s' : DB := { s with orders := orders' }
  match s.orders.filter (liveScope org oid) with
  | [] => (s', none)
  | r :: _ =>
    let u := { r with invoice := some inv }
    (s', some (mapToExtractedChatOrder u (findCustomer s u.customerId) (itemsOf s oid)))

/-- A `Partial<ExtractedChatOrder>` patch: the outer `Option` marks whether
the field is present (`!== undefined`). -/
structure ChatOrderPatch where
  customer_name : Option String := none
  items : Option (List ItemVal) := none
  total : Option (Option ℚ) := none
  delivery_address : Option (Option String) := none
  delivery_date : Option (Option String) := none
  special_instructions : Option (Option String) := none
  status : Option String := none
deriving Repr

/-- The `dbUpdates` object of `updateChatOrderDetails` applied to a row. -/
def applyChatPatch (p : ChatOrderPatch) (r : OrderRow) : OrderRow :=
  { r with
    totalAmount := match p.total with | some v => v | none => r.totalAmount
    deliveryAddress := match p.delivery_address with | some v => v | none => r.deliveryAddress
    deliveryDate := match p.delivery_date with | some v => v | none => r.deliveryDate
    specialInstructions :=
      match p.special_instructions with | some v => v | none => r.specialInstructions
    status := match p.status with | some v => v | none => r.status }

/-- The delete-then-reinsert item replacement of `updateChatOrderDetails`.
A present price with an absent quantity would store a NaN `totalPrice`,
modelled as null. -/
def replacementItemRows (org oid : String) (its : List ItemVal) (itemIds : List String) :
    List ItemRow :=
  (its.zip itemIds).map (fun pair =>
    { id := pair.2, orderId := oid, organizationId := org,
      productName := pair.1.product_name, quantity := pair.1.quantity,
      pricePerUnit := pair.1.price,
      totalPrice := match pair.1.price, pair.1.quantity with
        | some pr, some q => some (q * pr)
        | _, _ => none })

/-- `DatabaseStorage.updateChatOrderDetails(orgId, id, updates)`.  `itemIds`
is the `randomUUID()` supply for reinserted item rows. -/
def updateChatOrderDetails (s : DB) (org oid : String) (p : ChatOrderPatch)
    (itemIds : List String) : DB × Option ExtractedChatOrder :=
  let orders' := s.orders.map (fun r =>
    if liveScope org oid r then applyChatPatch p r else r)
  match s.orders.filter (liveScope org oid) with
  | [] => ({ s with orders := orders' }, none)
  | r :: _ =>
    let u := applyChatPatch p r
    let itemsRes : List ItemRow × List ItemRow := match p.items with
      | some its =>
        let remaining := s.orderItems.filter (fun i => !(i.orderId == oid))
        let news := if its.length > 0 then replacementItemRows org oid its itemIds else []
        (remaining ++ news, news)
      | none => (s.orderItems, itemsOf s oid)
    let customer := findCustomer s u.customerId
    let custRes : List CustomerRow × Option CustomerRow :=
      match p.customer_name, customer with
      | some nm, some c =>
        if nm ≠ "" ∧ nm ≠ c.name then
          (s.customers.map (fun cc =>
             if cc.id == c.id && cc.organizationId == org then { cc with name := nm } else cc),
           if c.organizationId == org then some { c with name := nm } else none)
        else (s.customers, some c)
      | _, c => (s.customers, c)
    ({ s with orders := orders', customers := custRes.1, orderItems := itemsRes.1 },
     some (mapToExtractedChatOrder u custRes.2 itemsRes.2))

/-- The `invoiceSequence` values of all of an organization's order rows,
soft-deleted rows included (the sequence query has no `deletedAt` filter). -/
def orgSeqList (rows : List OrderRow) (org : String) : List Nat :=
  rows.filterMap (fun r => if r.organizationId == org then r.invoiceSequence else none)

/-- `SELECT max(invoiceSequence) WHERE organizationId = org` followed by the
code's `|| 0`, which collapses the null aggregate to `0`. -/
def maxSeq (rows : List OrderRow) (org : String) : Nat :=
  (orgSeqList rows org).foldr max 0

/-- The `nextSequenceNumber` computed inside `generateAndAttachInvoice`. -/
def nextSeqVal (s : DB) (org : String) : Nat := maxSeq s.orders org + 1

/-- The field assignment of the invoice-attaching UPDATE. -/
def setInvoiceFields (inv : Invoice) (n : Nat) (r : OrderRow) : OrderRow :=
  { r with invoice := some inv, invoiceSequence := some n, status := "confirmed" }

/-- The UPDATE predicate of `generateAndAttachInvoice`: it re-asserts
`organizationId = org` but (unlike the select) not `deletedAt IS NULL`. -/
def genUpdateScope (org oid : String) (r : OrderRow) : Bool :=
  r.id == oid && r.organizationId == org

/-- The write statement of `generateAndAttachInvoice` as a separate state
step (the second half of the transaction body). -/
def genWrite (s : DB) (org oid : String) (inv : Invoice) (n : Nat) : DB :=
  { s with orders := s.orders.map (fun r =>
      if genUpdateScope org oid r then setInvoiceFields inv n r else r) }

/-- `DatabaseStorage.generateAndAttachInvoice(orgId, orderId, generateInvoiceFn)`
as one atomic transaction.  On a missing row the transaction rolls back and
the call yields `undefined` with no state change. -/
def generateAndAttachInvoice (s : DB) (org oid : String)
    (generateInvoiceFn : ExtractedChatOrder → Nat → Invoice) :
    DB × Option ExtractedChatOrder :=
  match selectOrderJoin s org oid with
  | [] => (s, none)
  | (r, c) :: _ =>
    let nextSequenceNumber := nextSeqVal s org
    let orderItems := itemsOf s oid
    let chatOrder := mapToExtractedChatOrder r (some c) orderItems
    let invoiceData := generateInvoiceFn chatOrder nextSequenceNumber
    let s' := genWrite s org oid invoiceData nextSequenceNumber
    match s'.orders.filter (genUpdateScope org oid) with
    | [] => (s', none)
    | u :: _ => (s', some (mapToExtractedChatOrder u (some c) orderItems))

/-- Half-up rounding to two decimal places (`Decimal.ROUND_HALF_UP` rounds an
exact half away from zero). -/
def round2 (q : ℚ) : ℚ :=
  if 0 ≤ q then ((⌊q * 100 + 1 / 2⌋ : ℤ) : ℚ) / 100
  else -(((⌊-(q * 100) + 1 / 2⌋ : ℤ) : ℚ) / 100)

/-- Invoice options (invoiceService.ts); destructuring defaults apply when a
field is `undefined`. -/
structure InvoiceOptions where
  businessName : Option String := none
  gstNumber : Option String := none
  invoiceSequence : Nat
  taxRatePercent : Option ℚ := none
  isInterstate : Option Bool := none
deriving Repr

/-- `String(n).padStart(3, '0')`. -/
def pad3 (n : Nat) : String :=
  let s := toString n
  String.mk (List.replicate (3 - s.length) '0') ++ s

/-- One line of the invoice: `amount = round(price × quantity, 2)` with a
null price treated as 0.  `new Decimal(undefined)` throws, so an absent
quantity aborts the computation (`none`). -/
def lineItemOf (item : ItemVal) : Option InvoiceItem :=
  match item.quantity with
  | none => none
  | some q =>
    let price := item.price.getD 0
    some { product_name := item.product_name, quantity := q, price := price,
           amount := round2 (price * q) }

/-- The `order.items.map(...)` loop building the invoice lines: the whole
computation aborts if any line throws. -/
def lineItemsOf : List ItemVal → Option (List InvoiceItem)
  | [] => some []
  | it :: rest =>
    match lineItemOf it, lineItemsOf rest with
    | some a, some l => some (a :: l)
    | _, _ => none

/-- `generateInvoiceData(order, options)` (invoiceService.ts).  The wall
clock enters through `year` and `dateStr`. -/
def generateInvoiceData (order : ExtractedChatOrder) (options : InvoiceOptions)
    (year : Nat) (dateStr : String) : Option Invoice :=
  match lineItemsOf order.items with
  | none => none
  | some invoiceItems =>
    let businessName := options.businessName.getD "Your Business Name"
    let gstNumber := options.gstNumber.getD "29XXXXX1234X1Z5"
    let taxRate := options.taxRatePercent.getD 18
    let isInterstate := options.isInterstate.getD false
    let invoice_number := "INV-" ++ toString year ++ "-" ++ pad3 options.invoiceSequence
    let subtotal := (invoiceItems.map (fun it => it.amount)).sum
    let igst := if isInterstate then round2 (subtotal * taxRate / 100) else 0
    let cgst := if isInterstate then 0 else round2 (subtotal * (taxRate / 2) / 100)
    let sgst := if isInterstate then 0 else round2 (subtotal * (taxRate / 2) / 100)
    let total := subtotal + cgst + sgst + igst
    some { invoice_number := invoice_number, date := dateStr,
           customer_name := strOrDefault order.customer_name "Customer",
           items := invoiceItems, subtotal := subtotal, cgst := cgst, sgst := sgst,
           igst := if isInterstate then some igst else none,
           total := total, business_name := businessName, gst_number := gstNumber }

/-- The newest-to-oldest accumulation loop of `applySlidingWindow`: `l` is
the message list already reversed (newest first), `cnt` the running
character count; the `break` on overflow ends the whole loop. -/
def slideTake (maxChars : Nat) : List ChatMessage → Nat → List ChatMessage
  | [], _ => []
  | m :: rest, cnt =>
    let cnt' := cnt + m.text.length
    if maxChars < cnt' then [] else m :: slideTake maxChars rest cnt'

/-- `applySlidingWindow(messages, maxChars = 12000)` (anthropicService.ts). -/
def applySlidingWindow (messages : List ChatMessage) (maxChars : Nat := 12000) :
    List ChatMessage :=
  (slideTake maxChars messages.reverse 0).reverse

/-- Retry-loop constants of anthropicService.ts. -/
def MAX_RETRIES : Nat := 3

/-- Base delay of the backoff (2s). -/
def INITIAL_RETRY_DELAY : ℚ := 2000

/-- Backoff cap (10s). -/
def MAX_RETRY_DELAY : ℚ := 10000

/-- `calculateBackoff(attempt)` with `Math.random() * 1000` passed in as
`jitter`. -/
def calculateBackoff (attempt : Nat) (jitter : ℚ) : ℚ :=
  min MAX_RETRY_DELAY (INITIAL_RETRY_DELAY * 2 ^ attempt) + jitter

/-- The outcome of one Claude API attempt: a usable tool payload, or an
error with an optional HTTP status (`none` for timeouts and transport
errors) and an optional Retry-After header (`some none` when present but
non-numeric). -/
inductive AttemptResult (α : Type) where
  | ok (v : α)
  | err (status : Option Int) (retryAfter : Option (Option ℚ))

/-- `error.status === 429`. -/
def isRateLimit (status : Option Int) : Bool := status == some 429

/-- `error.status >= 400 && error.status < 500 && !isRateLimit`; comparisons
against a missing status are false. -/
def isClientError (status : Option Int) : Bool :=
  match status with
  | some s => 400 ≤ s && s < 500 && !(s == 429)
  | none => false

/-- The delay chosen before the next retry: a numeric Retry-After on a 429
overrides the computed backoff. -/
def retryDelay (status : Option Int) (retryAfter : Option (Option ℚ))
    (attempt : Nat) (jitter : ℚ) : ℚ :=
  if isRateLimit status then
    match retryAfter with
    | some (some sec) => sec * 1000
    | some none => calculateBackoff attempt jitter
    | none => calculateBackoff attempt jitter
  else calculateBackoff attempt jitter

/-- How a run of `extractWithTool` ends: the payload is returned, a client
error is rethrown immediately, or the attempt budget is exhausted and the
final error reports the last failure. -/
inductive RunOutcome (α : Type) where
  | returned (v : α)
  | threwClient (status : Option Int)
  | exhausted (status : Option Int)
deriving DecidableEq, Repr

/-- The observable behaviour of one `extractWithTool` run: its result, the
sleeps taken between attempts, and how many attempts were made. -/
structure RunTrace (α : Type) where
  result : RunOutcome α
  delays : List ℚ
  attemptsMade : Nat

/-- The retry loop of `extractWithTool` from a given attempt index.
`outcomes` gives the result of each attempt, `jitters` the sampled
`Math.random() * 1000` values. -/
def extractLoopFrom (outcomes : Nat → AttemptResult α) (jitters : Nat → ℚ)
    (attempt : Nat) : RunTrace α :=
  match outcomes attempt with
  | .ok v => ⟨.returned v, [], 1⟩
  | .err st ra =>
    if isClientError st then ⟨.threwClient st, [], 1⟩
    else if h : attempt < MAX_RETRIES then
      let d := retryDelay st ra attempt (jitters attempt)
      let rest := extractLoopFrom outcomes jitters (attempt + 1)
      ⟨rest.result, d :: rest.delays, rest.attemptsMade + 1⟩
    else ⟨.exhausted st, [], 1⟩
termination_by MAX_RETRIES + 1 - attempt
decreasing_by simp only [MAX_RETRIES] at h ⊢; omega

/-- `extractWithTool` as the loop started at attempt 0. -/
def extractWithTool (outcomes : Nat → AttemptResult α) (jitters : Nat → ℚ) : RunTrace α :=
  extractLoopFrom outcomes jitters 0

/-- JS `Number(x) || 1`: missing or non-numeric (NaN) and `0` fall back. -/
def numOr1 : Option ℚ → ℚ
  | none => 1
  | some v => if v = 0 then 1 else v

/-- JS `Number(x) || 0.5` used for the numeric confidence. -/
def numOrHalf : Option ℚ → ℚ
  | none => 1 / 2
  | some v => if v = 0 then 1 / 2 else v

/-- The item coercion of `extractOrderFromMessage`. -/
def mapSingleItem (item : ItemVal) : ItemVal :=
  { name := some (strOrDefault item.name "Unknown"),
    quantity := some (numOr1 item.quantity),
    unit := truthyStr item.unit,
    pricePerUnit := item.pricePerUnit,
    totalPrice := item.totalPrice }

/-- The item coercion of `extractOrderFromChat`:
`String(item.product_name || item.name || "Unknown")`. -/
def mapChatItem (item : ItemVal) : ItemVal :=
  { product_name := some (strOrDefault item.product_name (strOrDefault item.name "Unknown")),
    quantity := some (numOr1 item.quantity),
    price := item.price }

/-- `Math.min(1, Math.max(0, Number(parsed.confidence) || 0.5))`. -/
def clampConfidence (c : Option ℚ) : ℚ := min 1 (max 0 (numOrHalf c))

/-- The raw tool payload of the single-message extraction; absent or
non-numeric fields are `none`. -/
structure SinglePayload where
  customerName : Option String := none
  customerPhone : Option String := none
  items : Option (List ItemVal) := none
  totalAmount : Option ℚ := none
  notes : Option String := none
  confidence : Option ℚ := none
deriving Repr

/-- The order record built by `extractOrderFromMessage` from the payload;
`uuid` and `now` stand for `randomUUID()` and `new Date().toISOString()`. -/
def extractedOrderOfPayload (p : SinglePayload) (uuid rawMessage now : String) :
    ExtractedOrder :=
  { id := uuid,
    customerName := truthyStr p.customerName,
    customerPhone := truthyStr p.customerPhone,
    items := match p.items with | some l => l.map mapSingleItem | none => [],
    totalAmount := p.totalAmount,
    currency := "INR",
    notes := truthyStr p.notes,
    rawMessage := some rawMessage,
    confidence := some (clampConfidence p.confidence),
    status := "pending",
    createdAt := now }

/-- The raw tool payload of the chat extraction. -/
structure ChatPayload where
  customer_name : Option String := none
  items : Option (List ItemVal) := none
  delivery_address : Option String := none
  delivery_date : Option String := none
  special_instructions : Option String := none
  total : Option ℚ := none
  confidence : Option String := none
deriving Repr

/-- `["high", "medium", "low"].includes(parsed.confidence) ? parsed.confidence
: "medium"`. -/
def coerceEnumConfidence (c : Option String) : String :=
  match c with
  | some s => if s = "high" ∨ s = "medium" ∨ s = "low" then s else "medium"
  | none => "medium"

/-- The order record built by `extractOrderFromChat`: the unpruned `messages`
array is preserved in `raw_messages`. -/
def extractedChatOrderOfPayload (p : ChatPayload) (idStr now : String)
    (messages : List ChatMessage) : ExtractedChatOrder :=
  { id := idStr,
    customer_name := truthyStr p.customer_name,
    items := match p.items with | some l => l.map mapChatItem | none => [],
    delivery_address := truthyStr p.delivery_address,
    delivery_date := truthyStr p.delivery_date,
    special_instructions := truthyStr p.special_instructions,
    total := p.total,
    confidence := some (.str (coerceEnumConfidence p.confidence)),
    status := "pending",
    created_at := now,
    raw_messages := some (.arr messages) }

/-- One call against the storage layer, with its nondeterministic inputs
(UUIDs, clock readings, invoice generator) frozen into the operation.  Read
operations do not change the state. -/
inductive StorageOp where
  | opGetOrders (org : String)
  | opGetOrder (org oid : String)
  | opAddOrder (org : String) (order : ExtractedOrder) (cid : String) (itemIds : List String)
  | opUpdateOrderStatus (org oid status : String)
  | opDeleteOrder (org oid now : String)
  | opGetChatOrders (org : String)
  | opGetChatOrder (org oid : String)
  | opAddChatOrder (org : String) (order : ExtractedChatOrder) (cid : String)
  | opAttachInvoice (org oid : String) (inv : Invoice)
  | opUpdateChatOrderDetails (org oid : String) (p : ChatOrderPatch) (itemIds : List String)
  | opGenerateInvoice (org oid : String) (gen : ExtractedChatOrder → Nat → Invoice)

/-- The state transition of one storage call. -/
def runOp (s : DB) : StorageOp → DB
  | .opGetOrders _ => s
  | .opGetOrder _ _ => s
  | .opGetChatOrders _ => s
  | .opGetChatOrder _ _ => s
  | .opAddOrder org o cid iids => (addOrder s org o cid iids).1
  | .opUpdateOrderStatus org oid st => (updateOrderStatus s org oid st).1
  | .opDeleteOrder org oid now => (deleteOrder s org oid now).1
  | .opAddChatOrder org o cid => (addChatOrder s org o cid).1
  | .opAttachInvoice org oid inv => (attachInvoice s org oid inv).1
  | .opUpdateChatOrderDetails org oid p iids => (updateChatOrderDetails s org oid p iids).1
  | .opGenerateInvoice org oid g => (generateAndAttachInvoice s org oid g).1

/-- Sequential execution of a list of storage calls. -/
def runOps (s : DB) : List StorageOp → DB
  | [] => s
  | op :: rest => runOps (runOp s op) rest

/-- The order ids targeted by the `generateAndAttachInvoice` calls of a
trace, restricted to one organization. -/
def genTargets (org : String) : List StorageOp → List String
  | [] => []
  | .opGenerateInvoice o oid _ :: rest =>
      if o = org then oid :: genTargets org rest else genTargets org rest
  | _ :: rest => genTargets org rest

/-- Whether one operation, run at state `s`, counts as a successful step for
`org`: an invoice generation for `org` must find its order; anything else
passes. -/
def genHeadOk (org : String) (s : DB) : StorageOp → Bool
  | .opGenerateInvoice o oid g =>
    if o = org then ((generateAndAttachInvoice s o oid g).2).isSome else true
  | _ => true

/-- Every `generateAndAttachInvoice` call for `org` in the trace succeeds
(finds its order) at the state it actually runs in. -/
def allGenSucceed (org : String) (s : DB) : List StorageOp → Bool
  | [] => true
  | op :: rest => genHeadOk org s op && allGenSucceed org (runOp s op) rest

/-! ## General helper lemmas -/

theorem liveScope_eq_true {org oid : String} {r : OrderRow} :
    liveScope org oid r = true ↔ r.id = oid ∧ r.organizationId = org ∧ r.deletedAt = none := by
  simp [liveScope, Option.isNone_iff_eq_none, and_assoc]

theorem cond_map_id {c : OrderRow → Bool} {upd : OrderRow → OrderRow} {l : List OrderRow}
    (h : ∀ r ∈ l, c r = false) : l.map (fun r => if c r then upd r else r) = l := by
  induction l with
  | nil => rfl
  | cons a t ih =>
    simp [h a (List.mem_cons_self a t), ih (fun r hr => h r (List.mem_cons_of_mem a hr))]

theorem selectOrderJoin_eq_nil {s : DB} {org oid : String}
    (hcust : ∀ r ∈ s.orders, ∃ c ∈ s.customers, c.id = r.customerId) :
    selectOrderJoin s org oid = [] ↔ s.orders.filter (liveScope org oid) = [] := by
  constructor
  · intro h
    by_contra hne
    cases hf : s.orders.filter (liveScope org oid) with
    | nil => exact hne hf
    | cons r t =>
      have hrmem : r ∈ s.orders := by
        have : r ∈ s.orders.filter (liveScope org oid) := by rw [hf]; exact List.mem_cons_self r t
        exact List.mem_of_mem_filter this
      obtain ⟨c, hcmem, hcid⟩ := hcust r hrmem
      have hfind : (findCustomer s r.customerId).isSome := by
        unfold findCustomer
        rw [List.find?_isSome]
        exact ⟨c, hcmem, by simp [hcid]⟩
      obtain ⟨c0, hc0⟩ := Option.isSome_iff_exists.mp hfind
      have : (r, c0) ∈ selectOrderJoin s org oid := by
        unfold selectOrderJoin
        rw [hf]
        refine List.mem_filterMap.mpr ⟨r, List.mem_cons_self r t, ?_⟩
        rw [hc0]; rfl
      rw [h] at this
      exact absurd this (List.not_mem_nil _)
  · intro h
    unfold selectOrderJoin
    rw [h]
    rfl

theorem getOrder_eq_none_iff {s : DB} {org oid : String} :
    getOrder s org oid = none ↔ selectOrderJoin s org oid = [] := by
  unfold getOrder
  cases h : selectOrderJoin s org oid with
  | nil => simp
  | cons p t => cases p; simp

theorem getChatOrder_eq_none_iff {s : DB} {org oid : String} :
    getChatOrder s org oid = none ↔ selectOrderJoin s org oid = [] := by
  unfold getChatOrder
  cases h : selectOrderJoin s org oid with
  | nil => simp
  | cons p t => cases p; simp

theorem filter_liveScope_eq_nil {s : DB} {org oid : String} :
    s.orders.filter (liveScope org oid) = [] ↔
      ∀ r ∈ s.orders, r.id = oid → r.organizationId = org → r.deletedAt ≠ none := by
  rw [List.filter_eq_nil_iff]
  constructor
  · intro h r hr hid horg
    have := h r hr
    rw [liveScope_eq_true] at this
    intro hdel
    exact this ⟨hid, horg, hdel⟩
  · intro h r hr
    rw [liveScope_eq_true]
    rintro ⟨hid, horg, hdel⟩
    exact h r hr hid horg hdel

/-! ## C10: attachInvoice updates only the invoice column -/

/-- C10.  `attachInvoice(org, orderId, invoice)` rewrites only the `invoice`
field of the rows matched by the live tenant-scoped predicate: customers and
item rows are untouched, every order keeps its `invoiceSequence` and
`status` (no transition to confirmed, no sequence allocation), and when no
live row of `org` has that id the call returns `undefined` with the state
unchanged. -/
theorem attachInvoice_frame (s : DB) (org oid : String) (inv : Invoice) :
    (attachInvoice s org oid inv).1.customers = s.customers ∧
    (attachInvoice s org oid inv).1.orderItems = s.orderItems ∧
    (attachInvoice s org oid inv).1.orders =
      s.orders.map (fun r => if liveScope org oid r then { r with invoice := some inv } else r) ∧
    (attachInvoice s org oid inv).1.orders.map (fun r => r.invoiceSequence) =
      s.orders.map (fun r => r.invoiceSequence) ∧
    (attachInvoice s org oid inv).1.orders.map (fun r => r.status) =
      s.orders.map (fun r => r.status) ∧
    ((∀ r ∈ s.orders, liveScope org oid r = false) → attachInvoice s org oid inv = (s, none)) := by
  have horders : (attachInvoice s org oid inv).1.orders =
      s.orders.map (fun r => if liveScope org oid r then { r with invoice := some inv } else r) := by
    unfold attachInvoice
    cases h : s.orders.filter (liveScope org oid) <;> simp [h]
  have hcust : (attachInvoice s org oid inv).1.customers = s.customers := by
    unfold attachInvoice
    cases h : s.orders.filter (liveScope org oid) <;> simp [h]
  have hitems : (attachInvoice s org oid inv).1.orderItems = s.orderItems := by
    unfold attachInvoice
    cases h : s.orders.filter (liveScope org oid) <;> simp [h]
  refine ⟨hcust, hitems, horders, ?_, ?_, ?_⟩
  · rw [horders, List.map_map]
    refine List.map_congr_left ?_
    intro r _
    by_cases hc : liveScope org oid r <;> simp [hc]
  · rw [horders, List.map_map]
    refine List.map_congr_left ?_
    intro r _
    by_cases hc : liveScope org oid r <;> simp [hc]
  · intro hall
    have hfil : s.orders.filter (liveScope org oid) = [] :=
      List.filter_eq_nil_iff.mpr (fun r hr => by simp [hall r hr])
    unfold attachInvoice
    rw [hfil]
    simp [cond_map_id (fun r hr => hall r hr)]

/-! ## C5: getOrder / getChatOrder NotFound behaviour -/

/-- C5.  Under the schema's referential integrity (every order's customer
exists), `getOrder(A, X)` and `getChatOrder(A, X)` yield `undefined` exactly
when no row with id X exists, or every such live row belongs to another
organization, or the matching row is soft-deleted; both reads fail under
exactly the same condition, and the failure value (`none`) carries no
information distinguishing the three causes, so a cross-tenant probe is
indistinguishable from absence. -/
theorem getOrder_notFound_characterization (s : DB) (org oid : String)
    (hcust : ∀ r ∈ s.orders, ∃ c ∈ s.customers, c.id = r.customerId) :
    (getOrder s org oid = none ↔
      ∀ r ∈ s.orders, r.id = oid → r.organizationId = org → r.deletedAt ≠ none) ∧
    (getChatOrder s org oid = none ↔
      ∀ r ∈ s.orders, r.id = oid → r.organizationId = org → r.deletedAt ≠ none) ∧
    (getOrder s org oid = none ↔ getChatOrder s org oid = none) := by
  have h1 : getOrder s org oid = none ↔ s.orders.filter (liveScope org oid) = [] :=
    getOrder_eq_none_iff.trans (selectOrderJoin_eq_nil hcust)
  have h2 : getChatOrder s org oid = none ↔ s.orders.filter (liveScope org oid) = [] :=
    getChatOrder_eq_none_iff.trans (selectOrderJoin_eq_nil hcust)
  exact ⟨h1.trans filter_liveScope_eq_nil, h2.trans filter_liveScope_eq_nil,
    h1.trans h2.symm⟩

/-- A two-tenant example state: org "A" owns live order "x"; org "B" owns
live order "y"; order "z" of org "A" is soft-deleted. -/
def exDB : DB :=
  { orders :=
      [ { id := "x", organizationId := "A", customerId := "cA",
          extractionType := "chat_log" },
        { id := "y", organizationId := "B", customerId := "cB",
          extractionType := "chat_log" },
        { id := "z", organizationId := "A", customerId := "cA",
          extractionType := "chat_log", deletedAt := some "2026-01-01" } ],
    customers :=
      [ { id := "cA", organizationId := "A", name := "Asha" },
        { id := "cB", organizationId := "B", name := "Bela" } ],
    orderItems := [] }

/-- Witness for C5: in `exDB`, org B's probe for org A's order "x" and the
probe for the deleted "z" both yield `none`, exactly as the characterization
demands at this concrete input. -/
theorem getOrder_notFound_witness :
    (getOrder exDB "B" "x" = none ↔
      ∀ r ∈ exDB.orders, r.id = "x" → r.organizationId = "B" → r.deletedAt ≠ none) ∧
    (getChatOrder exDB "B" "x" = none ↔
      ∀ r ∈ exDB.orders, r.id = "x" → r.organizationId = "B" → r.deletedAt ≠ none) ∧
    (getOrder exDB "B" "x" = none ↔ getChatOrder exDB "B" "x" = none) :=
  getOrder_notFound_characterization exDB "B" "x" (by decide)

/-! ## C9: sliding-window pruning -/

/-- Accumulated character count of a message list (`m.text.length` summed). -/
def charCount (l : List ChatMessage) : Nat := (l.map (fun m => m.text.length)).sum

theorem slideTake_prefix (maxChars : Nat) (l : List ChatMessage) (cnt : Nat) :
    slideTake maxChars l cnt <+: l := by
  induction l generalizing cnt with
  | nil => simp [slideTake]
  | cons m rest ih =>
    rw [slideTake]
    by_cases h : maxChars < cnt + m.text.length
    · simp [h]
    · rw [if_neg h]
      rcases ih (cnt + m.text.length) with ⟨u, hu⟩
      exact ⟨u, by rw [List.cons_append, hu]⟩

theorem slideTake_charCount (maxChars : Nat) (l : List ChatMessage) (cnt : Nat)
    (h : cnt ≤ maxChars) : cnt + charCount (slideTake maxChars l cnt) ≤ maxChars := by
  induction l generalizing cnt with
  | nil => simpa [slideTake, charCount]
  | cons m rest ih =>
    rw [slideTake]
    by_cases hover : maxChars < cnt + m.text.length
    · simpa [hover, charCount]
    · push_neg at hover
      rw [if_neg (Nat.not_lt.mpr hover)]
      have := ih (cnt + m.text.length) hover
      simp only [charCount, List.map_cons, List.sum_cons] at this ⊢
      omega

theorem slideTake_longest (maxChars : Nat) (l : List ChatMessage) (cnt : Nat)
    (p : List ChatMessage) (hp : p <+: l) (hc : cnt + charCount p ≤ maxChars) :
    p.length ≤ (slideTake maxChars l cnt).length := by
  induction l generalizing cnt p with
  | nil =>
    have := List.prefix_nil.mp hp
    simp [this]
  | cons m rest ih =>
    cases p with
    | nil => simp
    | cons q qt =>
      obtain ⟨hq, hqt⟩ : q = m ∧ qt <+: rest := by
        rcases hp with ⟨u, hu⟩
        injection hu with h1 h2
        exact ⟨h1, ⟨u, h2⟩⟩
      subst hq
      have hcq : (cnt + q.text.length) + charCount qt ≤ maxChars := by
        simp only [charCount, List.map_cons, List.sum_cons] at hc ⊢
        omega
      have hnot : ¬ maxChars < cnt + q.text.length := by
        have h0 : 0 ≤ charCount qt := Nat.zero_le _
        omega
      rw [slideTake]
      rw [if_neg hnot]
      simp only [List.length_cons]
      exact Nat.succ_le_succ (ih (cnt + q.text.length) qt hqt hcq)

/-- C9.  `applySlidingWindow(messages, 12000)` returns a suffix of the input
(the newest messages) whose accumulated character count stays within the
cap, and it is the longest such suffix — the newest-to-oldest iteration
stops before the first message that would exceed the cap.  The pruned
`messages` are still stored verbatim in the extracted order's
`raw_messages`. -/
theorem applySlidingWindow_spec (messages : List ChatMessage) (p : ChatPayload)
    (idStr now : String) :
    applySlidingWindow messages 12000 <:+ messages ∧
    charCount (applySlidingWindow messages 12000) ≤ 12000 ∧
    (∀ v, v <:+ messages → charCount v ≤ 12000 →
      v.length ≤ (applySlidingWindow messages 12000).length) ∧
    (extractedChatOrderOfPayload p idStr now messages).raw_messages =
      some (RawMsgs.arr messages) := by
  have hcc : ∀ w : List ChatMessage, charCount w.reverse = charCount w := by
    intro w
    simp [charCount, List.map_reverse, List.sum_reverse]
  refine ⟨?_, ?_, ?_, rfl⟩
  · have h := slideTake_prefix 12000 messages.reverse 0
    unfold applySlidingWindow
    have h2 : (slideTake 12000 messages.reverse 0).reverse <:+ messages.reverse.reverse :=
      List.reverse_suffix.mpr h
    simpa using h2
  · have h := slideTake_charCount 12000 messages.reverse 0 (Nat.zero_le _)
    unfold applySlidingWindow
    rw [hcc]
    simpa using h
  · intro v hv hvc
    have hvp : v.reverse <+: messages.reverse := List.reverse_prefix.mpr (by simpa using hv)
    have := slideTake_longest 12000 messages.reverse 0 v.reverse hvp
      (by rw [hcc]; simpa using hvc)
    unfold applySlidingWindow
    simpa using this

/-! ## C4: invoice arithmetic -/

/-- A rational with at most two decimal places. -/
def TwoDp (q : ℚ) : Prop := ∃ k : ℤ, q = (k : ℚ) / 100

theorem round2_twoDp (q : ℚ) : TwoDp (round2 q) := by
  unfold round2
  by_cases h : 0 ≤ q
  · exact ⟨⌊q * 100 + 1 / 2⌋, by rw [if_pos h]⟩
  · exact ⟨-⌊-(q * 100) + 1 / 2⌋, by rw [if_neg h]; push_cast; ring⟩

theorem twoDp_add {a b : ℚ} (ha : TwoDp a) (hb : TwoDp b) : TwoDp (a + b) := by
  obtain ⟨k, hk⟩ := ha
  obtain ⟨m, hm⟩ := hb
  exact ⟨k + m, by rw [hk, hm]; push_cast; ring⟩

theorem twoDp_sum {l : List ℚ} (h : ∀ q ∈ l, TwoDp q) : TwoDp l.sum := by
  induction l with
  | nil => exact ⟨0, by simp⟩
  | cons a t ih =>
    rw [List.sum_cons]
    exact twoDp_add (h a (List.mem_cons_self a t))
      (ih (fun q hq => h q (List.mem_cons_of_mem a hq)))

theorem floor_intCast_add_half (k : ℤ) : ⌊(k : ℚ) + 1 / 2⌋ = k := by
  have h : ⌊(1 / 2 : ℚ)⌋ = 0 := by
    rw [Int.floor_eq_zero_iff]
    constructor <;> norm_num
  rw [Int.floor_int_add, h, add_zero]

theorem round2_eq_self {q : ℚ} (h : TwoDp q) : round2 q = q := by
  obtain ⟨k, hk⟩ := h
  subst hk
  unfold round2
  by_cases h0 : (0 : ℚ) ≤ (k : ℚ) / 100
  · rw [if_pos h0]
    have harg : (k : ℚ) / 100 * 100 + 1 / 2 = (k : ℚ) + 1 / 2 := by ring
    rw [harg, floor_intCast_add_half]
  · rw [if_neg h0]
    have harg : -((k : ℚ) / 100 * 100) + 1 / 2 = ((-k : ℤ) : ℚ) + 1 / 2 := by push_cast; ring
    rw [harg, floor_intCast_add_half]
    push_cast
    ring

/-- The explicit line built for an item whose quantity is present. -/
def lineOfVal (it : ItemVal) : InvoiceItem :=
  { product_name := it.product_name, quantity := it.quantity.getD 0,
    price := it.price.getD 0,
    amount := round2 (it.price.getD 0 * it.quantity.getD 0) }

theorem lineItemsOf_eq_map {its : List ItemVal} (h : ∀ it ∈ its, it.quantity.isSome) :
    lineItemsOf its = some (its.map lineOfVal) := by
  induction its with
  | nil => rfl
  | cons a t ih =>
    have ha := h a (List.mem_cons_self a t)
    obtain ⟨q, hq⟩ := Option.isSome_iff_exists.mp ha
    rw [lineItemsOf, ih (fun it hit => h it (List.mem_cons_of_mem a hit))]
    simp [lineItemOf, hq, lineOfVal]

/-- The order of scenario S2: items 2 × 150 and 3 × 120. -/
def c4Order : ExtractedChatOrder :=
  { id := "o1",
    items := [ { product_name := some "Item A", quantity := some 2, price := some 150 },
               { product_name := some "Item B", quantity := some 3, price := some 120 } ] }

/-- Options of scenario S2: sequence 42, 18 percent GST, intra-state. -/
def c4Options : InvoiceOptions :=
  { invoiceSequence := 42, taxRatePercent := some 18, isInterstate := some false }

/-- C4.  `generateInvoiceData` computes, over exact rationals with half-up
rounding to two decimals: line amounts `round2(price × quantity)` with a
null price read as 0; the subtotal as the sum of the line amounts (already
a two-decimal value, so rounding it again is the identity); intra-state
`cgst = sgst = round2(subtotal × rate/2 / 100)` with `igst` absent;
inter-state `igst = round2(subtotal × rate / 100)` with `cgst = sgst = 0`;
and `total = subtotal + cgst + sgst + igst`.  On items `[2 × 150, 3 × 120]`
at rate 18 intra-state it yields number INV-2026-042, subtotal 660,
cgst = sgst = 59.40 and total 778.80. -/
theorem generateInvoiceData_spec (order : ExtractedChatOrder) (options : InvoiceOptions)
    (year : Nat) (dateStr : String)
    (h : ∀ it ∈ order.items, it.quantity.isSome) :
    (∃ inv, generateInvoiceData order options year dateStr = some inv ∧
      inv.items.map (fun it => it.amount) =
        order.items.map (fun it => round2 (it.price.getD 0 * it.quantity.getD 0)) ∧
      inv.subtotal = (inv.items.map (fun it => it.amount)).sum ∧
      round2 inv.subtotal = inv.subtotal ∧
      (options.isInterstate.getD false = false →
        inv.cgst = round2 (inv.subtotal * (options.taxRatePercent.getD 18 / 2) / 100) ∧
        inv.sgst = inv.cgst ∧ inv.igst = none) ∧
      (options.isInterstate.getD false = true →
        inv.igst = some (round2 (inv.subtotal * options.taxRatePercent.getD 18 / 100)) ∧
        inv.cgst = 0 ∧ inv.sgst = 0) ∧
      inv.total = inv.subtotal + inv.cgst + inv.sgst + inv.igst.getD 0) ∧
    (generateInvoiceData c4Order c4Options 2026 "12/10/2026").map
        (fun inv => (inv.invoice_number, inv.subtotal, inv.cgst, inv.sgst, inv.igst, inv.total)) =
      some ("INV-2026-042", 660, 59.4, 59.4, (none : Option ℚ), 778.8) := by
  constructor
  · have hline := lineItemsOf_eq_map h
    unfold generateInvoiceData
    rw [hline]
    refine ⟨_, rfl, ?_, rfl, ?_, ?_, ?_, ?_⟩
    · rw [List.map_map]
      rfl
    · apply round2_eq_self
      apply twoDp_sum
      intro q hq
      simp only [List.map_map, List.mem_map] at hq
      obtain ⟨it, _, hit⟩ := hq
      rw [← hit]
      exact round2_twoDp _
    · intro hf
      refine ⟨?_, ?_, ?_⟩ <;> simp [hf]
    · intro ht
      refine ⟨?_, ?_, ?_⟩ <;> simp [ht]
    · by_cases hi : options.isInterstate.getD false <;> simp [hi]
  · have hq : ∀ it ∈ c4Order.items, it.quantity.isSome := by decide
    simp only [generateInvoiceData, lineItemsOf_eq_map hq]
    have r300 : round2 (300 : ℚ) = 300 := round2_eq_self ⟨30000, by norm_num⟩
    have r360 : round2 (360 : ℚ) = 360 := round2_eq_self ⟨36000, by norm_num⟩
    have r594 : round2 ((297 : ℚ) / 5) = 297 / 5 := round2_eq_self ⟨5940, by norm_num⟩
    norm_num [c4Order, c4Options, lineOfVal, pad3, r300, r360, r594]
    decide

/-- Witness for C4: the general part applied to the S2 order. -/
theorem generateInvoiceData_witness :
    ∃ inv, generateInvoiceData c4Order c4Options 2026 "12/10/2026" = some inv ∧
      inv.items.map (fun it => it.amount) =
        c4Order.items.map (fun it => round2 (it.price.getD 0 * it.quantity.getD 0)) ∧
      inv.subtotal = (inv.items.map (fun it => it.amount)).sum ∧
      round2 inv.subtotal = inv.subtotal ∧
      (c4Options.isInterstate.getD false = false →
        inv.cgst = round2 (inv.subtotal * (c4Options.taxRatePercent.getD 18 / 2) / 100) ∧
        inv.sgst = inv.cgst ∧ inv.igst = none) ∧
      (c4Options.isInterstate.getD false = true →
        inv.igst = some (round2 (inv.subtotal * c4Options.taxRatePercent.getD 18 / 100)) ∧
        inv.cgst = 0 ∧ inv.sgst = 0) ∧
      inv.total = inv.subtotal + inv.cgst + inv.sgst + inv.igst.getD 0 :=
  (generateInvoiceData_spec c4Order c4Options 2026 "12/10/2026" (by decide)).1

/-! ## C6: retry loop, backoff and Retry-After -/

theorem extractLoopFrom_attempts (o : Nat → AttemptResult α) (j : Nat → ℚ) :
    ∀ (n a : Nat), MAX_RETRIES ≤ a + n → (extractLoopFrom o j a).attemptsMade ≤ n + 1 := by
  intro n
  induction n with
  | zero =>
    intro a ha
    rw [extractLoopFrom]
    cases ho : o a with
    | ok v => simp
    | err st ra =>
      by_cases hcl : isClientError st
      · simp [hcl]
      · have hnot : ¬ a < MAX_RETRIES := by omega
        simp [hcl, hnot]
  | succ n ih =>
    intro a ha
    rw [extractLoopFrom]
    cases ho : o a with
    | ok v => simp
    | err st ra =>
      by_cases hcl : isClientError st
      · simp [hcl]
      · by_cases hlt : a < MAX_RETRIES
        · have := ih (a + 1) (by omega)
          simp only [hcl, Bool.false_eq_true, if_false, hlt, dif_pos]
          omega
        · simp [hcl, hlt]

/-- C6.  `extractWithTool` makes at most four attempts; after a failed
retriable attempt the recorded delay is `retryDelay`, which is
`min(10000, 2000·2^attempt) + jitter` except when a 429 carries a numeric
Retry-After header, in which case the server-advised `sec × 1000` is used;
a non-429 4xx is rethrown at once with no further attempt; and when every
attempt fails retriably the loop runs all four attempts, sleeps three
times, and reports exhaustion. -/
theorem extractWithTool_retry_spec (α : Type) (o : Nat → AttemptResult α) (j : Nat → ℚ)
    (a : Nat) (st : Option Int) (ra : Option (Option ℚ)) (sec jit : ℚ) :
    (extractWithTool o j).attemptsMade ≤ 4 ∧
    calculateBackoff a jit = min 10000 (2000 * 2 ^ a) + jit ∧
    (0 ≤ jit → jit < 1000 →
      min 10000 (2000 * 2 ^ a) ≤ calculateBackoff a jit ∧
      calculateBackoff a jit < min 10000 (2000 * 2 ^ a) + 1000) ∧
    (o a = .err st ra → isClientError st = false → a < MAX_RETRIES →
      (extractLoopFrom o j a).delays =
        retryDelay st ra a (j a) :: (extractLoopFrom o j (a + 1)).delays ∧
      (extractLoopFrom o j a).result = (extractLoopFrom o j (a + 1)).result) ∧
    (¬(st = some 429 ∧ ∃ s, ra = some (some s)) → retryDelay st ra a jit = calculateBackoff a jit) ∧
    retryDelay (some 429) (some (some sec)) a jit = sec * 1000 ∧
    (o a = .err st ra → isClientError st = true →
      extractLoopFrom o j a = ⟨.threwClient st, [], 1⟩) ∧
    ((∀ b, b ≤ MAX_RETRIES → ∃ stb rab, o b = .err stb rab ∧ isClientError stb = false) →
      ∃ stl, (extractWithTool o j).result = .exhausted stl ∧
        (extractWithTool o j).attemptsMade = 4 ∧
        (extractWithTool o j).delays.length = 3) := by
  refine ⟨?_, rfl, ?_, ?_, ?_, rfl, ?_, ?_⟩
  · have h := extractLoopFrom_attempts o j 3 0 (by simp [MAX_RETRIES])
    exact h
  · intro h0 h1
    unfold calculateBackoff INITIAL_RETRY_DELAY MAX_RETRY_DELAY
    constructor <;> linarith
  · intro ho hcl hlt
    rw [extractLoopFrom]
    simp [ho, hcl, hlt]
  · intro hne
    unfold retryDelay
    by_cases hr : isRateLimit st
    · cases ra with
      | none => simp [hr]
      | some v =>
        cases v with
        | none => simp [hr]
        | some s =>
          exfalso
          have h429 : st = some 429 := by
            unfold isRateLimit at hr
            simpa using hr
          exact hne ⟨h429, s, rfl⟩
    · simp [hr]
  · intro ho hcl
    rw [extractLoopFrom]
    simp [ho, hcl]
  · intro hall
    obtain ⟨st3, ra3, ho3, hcl3⟩ := hall 3 (by simp [MAX_RETRIES])
    obtain ⟨st2, ra2, ho2, hcl2⟩ := hall 2 (by simp [MAX_RETRIES])
    obtain ⟨st1, ra1, ho1, hcl1⟩ := hall 1 (by simp [MAX_RETRIES])
    obtain ⟨st0, ra0, ho0, hcl0⟩ := hall 0 (by simp [MAX_RETRIES])
    have h3 : extractLoopFrom o j 3 = ⟨.exhausted st3, [], 1⟩ := by
      rw [extractLoopFrom]
      simp [ho3, hcl3, MAX_RETRIES]
    have h2 : extractLoopFrom o j 2 =
        ⟨.exhausted st3, [retryDelay st2 ra2 2 (j 2)], 2⟩ := by
      rw [extractLoopFrom]
      simp [ho2, hcl2, MAX_RETRIES, h3]
    have h1 : extractLoopFrom o j 1 =
        ⟨.exhausted st3, [retryDelay st1 ra1 1 (j 1), retryDelay st2 ra2 2 (j 2)], 3⟩ := by
      rw [extractLoopFrom]
      simp [ho1, hcl1, MAX_RETRIES, h2]
    have h0 : extractLoopFrom o j 0 =
        ⟨.exhausted st3,
         [retryDelay st0 ra0 0 (j 0), retryDelay st1 ra1 1 (j 1), retryDelay st2 ra2 2 (j 2)],
         4⟩ := by
      rw [extractLoopFrom]
      simp [ho0, hcl0, MAX_RETRIES, h1]
    exact ⟨st3, by simp [extractWithTool, h0]⟩

/-! ## C7: tool payload coercion -/

/-- C7.  The payload coercions of `extractOrderFromMessage` and
`extractOrderFromChat`: an item quantity defaults to 1 when missing or
nonsensical (`Number(x)` NaN, or 0, both falsy in JS) and is kept otherwise;
an absent price stays null and a present price is passed through unchanged
(the client never invents a price); the numeric confidence lands in
`[0, 1]` and equals `min(1, x)` for positive numeric inputs; and an
enumerated confidence outside high/medium/low falls back to "medium". -/
theorem payloadCoercion_spec (it : ItemVal) (v : ℚ) (p : SinglePayload) (pc : ChatPayload)
    (c : Option String) (e : String) (uuid raw now idStr : String) (msgs : List ChatMessage) :
    ((it.quantity = none ∨ it.quantity = some 0 →
        (mapChatItem it).quantity = some 1 ∧ (mapSingleItem it).quantity = some 1) ∧
     (it.quantity = some v → v ≠ 0 →
        (mapChatItem it).quantity = some v ∧ (mapSingleItem it).quantity = some v)) ∧
    ((mapChatItem it).price = it.price ∧
     (mapSingleItem it).pricePerUnit = it.pricePerUnit ∧
     (it.price = none → (mapChatItem it).price = none)) ∧
    (0 ≤ clampConfidence p.confidence ∧ clampConfidence p.confidence ≤ 1 ∧
     (extractedOrderOfPayload p uuid raw now).confidence =
        some (clampConfidence p.confidence) ∧
     (p.confidence = some v → 0 < v → clampConfidence p.confidence = min 1 v)) ∧
    ((¬(c = some "high" ∨ c = some "medium" ∨ c = some "low") →
        coerceEnumConfidence c = "medium") ∧
     (c = some e → (e = "high" ∨ e = "medium" ∨ e = "low") → coerceEnumConfidence c = e) ∧
     (extractedChatOrderOfPayload pc idStr now msgs).confidence =
        some (.str (coerceEnumConfidence pc.confidence)) ∧
     (extractedChatOrderOfPayload pc idStr now msgs).items =
        (match pc.items with | some l => l.map mapChatItem | none => []) ∧
     (extractedOrderOfPayload p uuid raw now).items =
        (match p.items with | some l => l.map mapSingleItem | none => [])) := by
  refine ⟨⟨?_, ?_⟩, ⟨rfl, rfl, ?_⟩, ⟨?_, ?_, rfl, ?_⟩, ⟨?_, ?_, rfl, rfl, rfl⟩⟩
  · rintro (hq | hq) <;> simp [mapChatItem, mapSingleItem, numOr1, hq]
  · intro hq hv
    simp [mapChatItem, mapSingleItem, numOr1, hq, hv]
  · intro hp
    simp [mapChatItem, hp]
  · unfold clampConfidence
    positivity
  · unfold clampConfidence
    exact min_le_left _ _
  · intro hc hv
    unfold clampConfidence numOrHalf
    rw [hc]
    have hne : v ≠ 0 := ne_of_gt hv
    simp only [hne, if_false]
    rw [max_eq_right (le_of_lt hv)]
  · intro hc
    unfold coerceEnumConfidence
    cases c with
    | none => rfl
    | some s =>
      have h1 : ¬ s = "high" := fun h => hc (Or.inl (by rw [h]))
      have h2 : ¬ s = "medium" := fun h => hc (Or.inr (Or.inl (by rw [h])))
      have h3 : ¬ s = "low" := fun h => hc (Or.inr (Or.inr (by rw [h])))
      simp [h1, h2, h3]
  · rintro rfl he
    simp [coerceEnumConfidence, he]

/-! ## C1: the invoice-generation transaction -/

theorem selectOrderJoin_head {s : DB} {org oid : String} {r : OrderRow} {c : CustomerRow}
    {rest : List (OrderRow × CustomerRow)}
    (h : selectOrderJoin s org oid = (r, c) :: rest) :
    r ∈ s.orders ∧ liveScope org oid r = true ∧ findCustomer s r.customerId = some c := by
  have hmem : (r, c) ∈ selectOrderJoin s org oid := by
    rw [h]
    exact List.mem_cons_self _ _
  unfold selectOrderJoin at hmem
  obtain ⟨a, hamem, ha⟩ := List.mem_filterMap.mp hmem
  obtain ⟨c0, hc0, heq⟩ := Option.map_eq_some'.mp ha
  obtain ⟨h1, h2⟩ := Prod.mk.injEq .. ▸ heq
  subst h1
  subst h2
  exact ⟨List.mem_of_mem_filter hamem, (List.mem_filter.mp hamem).2, hc0⟩

theorem id_inj_of_nodup {l : List OrderRow} (h : (l.map (fun x => x.id)).Nodup)
    {a b : OrderRow} (ha : a ∈ l) (hb : b ∈ l) (hab : a.id = b.id) : a = b :=
  List.inj_on_of_nodup_map h ha hb hab

theorem filter_update_eq_single {l : List OrderRow} {r u : OrderRow} {p : OrderRow → Bool}
    (hids : (l.map (fun x => x.id)).Nodup) (hr : r ∈ l) (hpu : p u = true)
    (hne : ∀ q ∈ l, q ≠ r → p q = false) :
    (l.map (fun q => if q = r then u else q)).filter p = [u] := by
  induction l with
  | nil => cases hr
  | cons a t ih =>
    rw [List.map_cons]
    have hnd : a.id ∉ t.map (fun x => x.id) ∧ (t.map (fun x => x.id)).Nodup := by
      have h2 := hids
      rw [List.map_cons, List.nodup_cons] at h2
      exact h2
    by_cases ha : a = r
    · subst ha
      have htnone : ∀ q ∈ t, q ≠ a := by
        intro q hq hqa
        exact hnd.1 (List.mem_map.mpr ⟨q, hq, by rw [hqa]⟩)
      have hmap : t.map (fun q => if q = a then u else q) = t := by
        refine (List.map_congr_left ?_).trans (List.map_id t)
        intro q hq
        exact if_neg (htnone q hq)
      have hfil : t.filter p = [] :=
        List.filter_eq_nil_iff.mpr
          (fun q hq => by simp [hne q (List.mem_cons_of_mem a hq) (htnone q hq)])
      simp [hpu, hmap, hfil]
    · have hpa : p a = false := hne a (List.mem_cons_self a t) ha
      rw [if_neg ha]
      have hrt : r ∈ t := by
        rcases List.mem_cons.mp hr with h | h
        · exact absurd h.symm ha
        · exact h
      rw [List.filter_cons_of_neg (by simp [hpa])]
      exact ih hnd.2 hrt (fun q hq hqr => hne q (List.mem_cons_of_mem a hq) hqr)

theorem mem_le_foldr_max {l : List Nat} {m : Nat} (h : m ∈ l) : m ≤ l.foldr max 0 := by
  induction l with
  | nil => cases h
  | cons a t ih =>
    rw [List.foldr_cons]
    rcases List.mem_cons.mp h with h | h
    · subst h
      exact le_max_left _ _
    · exact le_trans (ih h) (le_max_right _ _)

theorem foldr_max_mem (l : List Nat) : l.foldr max 0 = 0 ∨ l.foldr max 0 ∈ l := by
  induction l with
  | nil => left; rfl
  | cons a t ih =>
    rw [List.foldr_cons]
    rcases Nat.le_total a (t.foldr max 0) with h | h
    · rw [max_eq_right h]
      rcases ih with h0 | hm
      · left; exact h0
      · right; exact List.mem_cons_of_mem a hm
    · rw [max_eq_left h]
      right
      exact List.mem_cons_self a t

/-- C1.  `generateAndAttachInvoice(org, orderId, generator)` either finds no
live order of `org` with that id and yields `undefined` with no state
change, or — in one transaction — computes `nextSeq` strictly above every
existing sequence of the organization (`maxSeq + 1`; `1` when none exists),
invokes the generator on the mapped order with `nextSeq`, and rewrites
exactly the selected row (the update predicate re-asserts the organization)
to hold the generated invoice, `invoiceSequence = nextSeq` and
`status = "confirmed"`; customers and item rows are untouched and the
updated mapped record is returned. -/
theorem generateAndAttachInvoice_spec (s : DB) (org oid : String)
    (gen : ExtractedChatOrder → Nat → Invoice)
    (hids : (s.orders.map (fun r => r.id)).Nodup) :
    (selectOrderJoin s org oid = [] → generateAndAttachInvoice s org oid gen = (s, none)) ∧
    (∀ inv n q, (setInvoiceFields inv n q).invoice = some inv ∧
      (setInvoiceFields inv n q).invoiceSequence = some n ∧
      (setInvoiceFields inv n q).status = "confirmed") ∧
    (orgSeqList s.orders org = [] → nextSeqVal s org = 1) ∧
    (∀ m ∈ orgSeqList s.orders org, m < nextSeqVal s org) ∧
    (orgSeqList s.orders org ≠ [] → nextSeqVal s org - 1 ∈ orgSeqList s.orders org) ∧
    (∀ r c rest, selectOrderJoin s org oid = (r, c) :: rest →
      r ∈ s.orders ∧ r.id = oid ∧ r.organizationId = org ∧ r.deletedAt = none ∧
      (generateAndAttachInvoice s org oid gen).1.orders =
        s.orders.map (fun q =>
          if q = r
          then setInvoiceFields
                 (gen (mapToExtractedChatOrder r (some c) (itemsOf s oid)) (nextSeqVal s org))
                 (nextSeqVal s org) r
          else q) ∧
      (generateAndAttachInvoice s org oid gen).1.customers = s.customers ∧
      (generateAndAttachInvoice s org oid gen).1.orderItems = s.orderItems ∧
      (generateAndAttachInvoice s org oid gen).2 =
        some (mapToExtractedChatOrder
          (setInvoiceFields
            (gen (mapToExtractedChatOrder r (some c) (itemsOf s oid)) (nextSeqVal s org))
            (nextSeqVal s org) r)
          (some c) (itemsOf s oid))) := by
  refine ⟨?_, ?_, ?_, ?_, ?_, ?_⟩
  · intro h
    unfold generateAndAttachInvoice
    rw [h]
  · intro inv n q
    exact ⟨rfl, rfl, rfl⟩
  · intro h
    unfold nextSeqVal maxSeq
    rw [h]
    rfl
  · intro m hm
    have := mem_le_foldr_max hm
    unfold nextSeqVal maxSeq
    omega
  · intro hne
    rcases foldr_max_mem (orgSeqList s.orders org) with h0 | hm
    · obtain ⟨m, hm⟩ := List.exists_mem_of_ne_nil _ hne
      have hle := mem_le_foldr_max hm
      rw [h0] at hle
      have : m = 0 := Nat.le_zero.mp hle
      subst this
      unfold nextSeqVal maxSeq
      simpa [h0] using hm
    · unfold nextSeqVal maxSeq
      simpa using hm
  · intro r c rest hsel
    obtain ⟨hrmem, hlive, hfind⟩ := selectOrderJoin_head hsel
    obtain ⟨hid, horg, hdel⟩ := liveScope_eq_true.mp hlive
    have hscope : ∀ q ∈ s.orders, q ≠ r → genUpdateScope org oid q = false := by
      intro q hq hqr
      by_contra hcon
      have htrue : genUpdateScope org oid q = true := by
        cases h : genUpdateScope org oid q
        · exact absurd h hcon
        · rfl
      have hqid : q.id = oid := by
        unfold genUpdateScope at htrue
        simp only [Bool.and_eq_true, beq_iff_eq] at htrue
        exact htrue.1
      exact hqr (id_inj_of_nodup hids hq hrmem (by rw [hqid, hid]))
    have hmapeq : ∀ (inv : Invoice) (n : Nat),
        s.orders.map (fun q => if genUpdateScope org oid q then setInvoiceFields inv n q else q) =
        s.orders.map (fun q => if q = r then setInvoiceFields inv n r else q) := by
      intro inv n
      refine List.map_congr_left ?_
      intro q hq
      by_cases hqr : q = r
      · subst hqr
        have : genUpdateScope org oid q = true := by
          unfold genUpdateScope
          simp [hid, horg]
        simp [this]
      · simp [hscope q hq hqr, hqr]
    have hfilter : ∀ (inv : Invoice) (n : Nat),
        ((s.orders.map (fun q => if q = r then setInvoiceFields inv n r else q)).filter
          (genUpdateScope org oid)) = [setInvoiceFields inv n r] := by
      intro inv n
      refine filter_update_eq_single hids hrmem ?_ hscope
      unfold genUpdateScope setInvoiceFields
      simp [hid, horg]
    unfold generateAndAttachInvoice
    rw [hsel]
    simp only [genWrite, hmapeq, hfilter]
    refine ⟨hrmem, hid, horg, hdel, ?_, ?_, ?_, ?_⟩ <;> trivial

/-- The constant generator used by concrete instances. -/
def exGen : ExtractedChatOrder → Nat → Invoice := fun _ n =>
  { invoice_number := "INV-2026-" ++ pad3 n, date := "", customer_name := "",
    items := [], subtotal := 0, cgst := 0, sgst := 0, igst := none, total := 0,
    business_name := "", gst_number := "" }

/-- Witness for C1: in `exDB` the probe for the absent order id "nope"
rolls back and returns `undefined`, and the sequence seed is 1. -/
theorem generateAndAttachInvoice_witness :
    (selectOrderJoin exDB "A" "nope" = [] →
      generateAndAttachInvoice exDB "A" "nope" exGen = (exDB, none)) ∧
    (orgSeqList exDB.orders "A" = [] → nextSeqVal exDB "A" = 1) :=
  ⟨(generateAndAttachInvoice_spec exDB "A" "nope" exGen (by decide)).1,
   (generateAndAttachInvoice_spec exDB "A" "nope" exGen (by decide)).2.2.1⟩

/-! ## C8: addOrder / addChatOrder -/

/-- A state whose organization "O" already has one customer, Alice. -/
def c8DB : DB :=
  { orders := [], customers := [{ id := "c1", organizationId := "O", name := "Alice" }],
    orderItems := [] }

/-- A chat order with no customer name and one line item. -/
def c8Order : ExtractedChatOrder :=
  { id := "ord1", customer_name := none,
    items := [{ product_name := some "Rice" }] }

/-- Counterexample to C8 as stated: `c8Order` names no customer, so no
customer matches the pair (organizationId, customer name), yet
`addChatOrder` creates no new customer and attaches the order to the
unrelated existing customer "c1"; and although the order has a line item,
no `orderItemsTable` row is bulk-inserted. -/
theorem addChatOrder_counterexample :
    c8Order.items ≠ [] ∧
    (∀ c ∈ c8DB.customers, ¬(c.organizationId = "O" ∧ c8Order.customer_name = some c.name)) ∧
    (addChatOrder c8DB "O" c8Order "cNew").1.customers = c8DB.customers ∧
    (∀ r ∈ (addChatOrder c8DB "O" c8Order "cNew").1.orders, r.customerId = "c1") ∧
    (addChatOrder c8DB "O" c8Order "cNew").1.orderItems = [] := by
  decide

/-- The fresh customer row `addChatOrder` inserts when no lookup match
exists. -/
def freshChatCustomer (org : String) (co : ExtractedChatOrder) (cid : String) : CustomerRow :=
  { id := cid, organizationId := org,
    name := strOrDefault co.customer_name "Unknown Customer" }

/-- C8 (amended).  `addChatOrder` reuses the first customer matching the
lookup conditions — always `organizationId = org`, plus the name only when
`customer_name` is truthy, so a nameless order reuses any existing customer
of the org — and otherwise inserts a fresh customer scoped to org; it
appends the order row with the items kept in the JSONB `items` column,
inserts no normalized `orderItemsTable` rows, and returns the mapped
record.  `addOrder` always creates a fresh customer, appends the order row,
bulk-inserts one normalized item row per line, and returns the mapped
record; each operation is one atomic transaction. -/
theorem addOrder_addChatOrder_spec (s : DB) (org : String) (co : ExtractedChatOrder)
    (o : ExtractedOrder) (cid : String) (itemIds : List String) :
    ((addChatOrder s org co cid).1.customers = s.customers ↔
      (s.customers.find? (lookupMatches org co.customer_name)).isSome) ∧
    (∀ c, s.customers.find? (lookupMatches org co.customer_name) = some c →
      (addChatOrder s org co cid).1.customers = s.customers ∧
      ∃ row, (addChatOrder s org co cid).1.orders = s.orders ++ [row] ∧
        row.customerId = c.id ∧ row.organizationId = org ∧ row.id = co.id ∧
        row.itemsJson = some co.items ∧ row.extractionType = "chat_log") ∧
    (s.customers.find? (lookupMatches org co.customer_name) = none →
      (addChatOrder s org co cid).1.customers = s.customers ++
        [{ id := cid, organizationId := org,
           name := strOrDefault co.customer_name "Unknown Customer" }] ∧
      ∃ row, (addChatOrder s org co cid).1.orders = s.orders ++ [row] ∧
        row.customerId = cid ∧ row.organizationId = org ∧ row.id = co.id) ∧
    (addChatOrder s org co cid).1.orderItems = s.orderItems ∧
    (∃ row cust, (addChatOrder s org co cid).2 = mapToExtractedChatOrder row cust []) ∧
    (addOrder s org o cid itemIds).1.customers = s.customers ++
      [{ id := cid, organizationId := org,
         name := strOrDefault o.customerName "Unknown Customer",
         phone := truthyStr o.customerPhone }] ∧
    (∃ row, (addOrder s org o cid itemIds).1.orders = s.orders ++ [row] ∧
      row.customerId = cid ∧ row.organizationId = org ∧ row.id = o.id ∧
      row.extractionType = "single_message") ∧
    (o.items.length ≤ itemIds.length →
      ((addOrder s org o cid itemIds).1.orderItems).length =
        s.orderItems.length + o.items.length) ∧
    (∃ row cust itemRows, (addOrder s org o cid itemIds).2 =
        mapToExtractedOrder row cust itemRows ∧
      (addOrder s org o cid itemIds).1.orderItems = s.orderItems ++ itemRows) := by
  refine ⟨?_, ?_, ?_, ?_, ?_, ?_, ?_, ?_, ?_⟩
  · cases hfind : s.customers.find? (lookupMatches org co.customer_name) with
    | none =>
      simp only [addChatOrder, hfind, Option.isSome_none]
      constructor
      · intro h
        exact absurd h (by simp)
      · intro h
        exact absurd h (by simp)
    | some c => simp [addChatOrder, hfind]
  · intro c hfind
    refine ⟨by simp [addChatOrder, hfind], ?_⟩
    refine ⟨{ id := co.id, organizationId := org, customerId := c.id,
              extractionType := "chat_log", itemsJson := some co.items,
              totalAmount := co.total, deliveryAddress := co.delivery_address,
              deliveryDate := co.delivery_date,
              specialInstructions := co.special_instructions,
              rawMessages := co.raw_messages, confidence := co.confidence,
              status := co.status, createdAt := co.created_at },
            by simp [addChatOrder, hfind], rfl, rfl, rfl, rfl, rfl⟩
  · intro hfind
    refine ⟨by simp [addChatOrder, hfind], ?_⟩
    refine ⟨{ id := co.id, organizationId := org, customerId := cid,
              extractionType := "chat_log", itemsJson := some co.items,
              totalAmount := co.total, deliveryAddress := co.delivery_address,
              deliveryDate := co.delivery_date,
              specialInstructions := co.special_instructions,
              rawMessages := co.raw_messages, confidence := co.confidence,
              status := co.status, createdAt := co.created_at },
            by simp [addChatOrder, hfind], rfl, rfl, rfl⟩
  · cases hfind : s.customers.find? (lookupMatches org co.customer_name) <;>
      simp [addChatOrder, hfind]
  · cases hfind : s.customers.find? (lookupMatches org co.customer_name) with
    | none =>
      refine ⟨{ id := co.id, organizationId := org, customerId := cid,
                extractionType := "chat_log", itemsJson := some co.items,
                totalAmount := co.total, deliveryAddress := co.delivery_address,
                deliveryDate := co.delivery_date,
                specialInstructions := co.special_instructions,
                rawMessages := co.raw_messages, confidence := co.confidence,
                status := co.status, createdAt := co.created_at },
              (s.customers ++ [freshChatCustomer org co cid]).find?
                 (fun x => x.id == cid), ?_⟩
      simp [addChatOrder, hfind, freshChatCustomer]
    | some c =>
      refine ⟨{ id := co.id, organizationId := org, customerId := c.id,
                extractionType := "chat_log", itemsJson := some co.items,
                totalAmount := co.total, deliveryAddress := co.delivery_address,
                deliveryDate := co.delivery_date,
                specialInstructions := co.special_instructions,
                rawMessages := co.raw_messages, confidence := co.confidence,
                status := co.status, createdAt := co.created_at },
              s.customers.find? (fun x => x.id == c.id), ?_⟩
      simp [addChatOrder, hfind]
  · rfl
  · exact ⟨_, rfl, rfl, rfl, rfl, rfl⟩
  · intro hlen
    by_cases hi : o.items.length > 0
    · simp only [addOrder, if_pos hi, List.length_append, List.length_map, List.length_zip]
      omega
    · have : o.items = [] := List.length_eq_zero.mp (by omega)
      simp [addOrder, this]
  · exact ⟨_, _, _, rfl, rfl⟩

/-! ## C3: concurrent sequence allocation -/

/-- Two live orders of organization "O", neither invoiced yet. -/
def c3DB : DB :=
  { orders :=
      [ { id := "A", organizationId := "O", customerId := "c1",
          extractionType := "chat_log" },
        { id := "B", organizationId := "O", customerId := "c1",
          extractionType := "chat_log" } ],
    customers := [ { id := "c1", organizationId := "O", name := "Asha" } ],
    orderItems := [] }

/-- A fixed invoice value for the race demonstration. -/
def c3Inv : Invoice :=
  { invoice_number := "INV-2026-001", date := "", customer_name := "",
    items := [], subtotal := 0, cgst := 0, sgst := 0, igst := none, total := 0,
    business_name := "", gst_number := "" }

/-- C3 fails on the code: `generateAndAttachInvoice` takes no per-org write
lock — its transaction body is a plain SELECT of the order, a plain
`SELECT max(invoiceSequence)` (the read step, `nextSeqVal`) and an UPDATE
(the write step, `genWrite`); the schema has no unique index on
`(organizationId, invoiceSequence)` either.  Under the database's default
read-committed isolation two concurrent generators for the same
organization can interleave read–read–write–write: both reads of `c3DB`
compute `nextSeq = 1`, and after both writes commit, orders "A" and "B"
both hold `invoiceSequence = 1` — a duplicate, not the serialized 1, 2 the
claim asserts. -/
theorem invoiceSequence_race_duplicate :
    orgSeqList c3DB.orders "O" = [] ∧
    nextSeqVal c3DB "O" = 1 ∧
    orgSeqList
      (genWrite (genWrite c3DB "O" "A" c3Inv (nextSeqVal c3DB "O"))
        "O" "B" c3Inv (nextSeqVal c3DB "O")).orders "O" = [1, 1] ∧
    ¬ (orgSeqList
      (genWrite (genWrite c3DB "O" "A" c3Inv (nextSeqVal c3DB "O"))
        "O" "B" c3Inv (nextSeqVal c3DB "O")).orders "O").Nodup := by
  decide

/-! ## C2: sequence density across operation traces -/

theorem orgSeqList_map (l : List OrderRow) (f : OrderRow → OrderRow) (org : String)
    (horg : ∀ r, (f r).organizationId = r.organizationId)
    (hseq : ∀ r, r.organizationId = org → (f r).invoiceSequence = r.invoiceSequence) :
    orgSeqList (l.map f) org = orgSeqList l org := by
  unfold orgSeqList
  rw [List.filterMap_map]
  apply List.filterMap_congr
  intro a _
  show (if ((f a).organizationId == org) = true then (f a).invoiceSequence else none) =
    (if (a.organizationId == org) = true then a.invoiceSequence else none)
  rw [horg a]
  by_cases ha : a.organizationId = org
  · rw [if_pos (by simp [ha]), if_pos (by simp [ha]), hseq a ha]
  · rw [if_neg (by simp [ha]), if_neg (by simp [ha])]

theorem orgSeqList_append (l1 l2 : List OrderRow) (org : String) :
    orgSeqList (l1 ++ l2) org = orgSeqList l1 org ++ orgSeqList l2 org := by
  simp [orgSeqList, List.filterMap_append]

theorem orgSeqList_eq_nil_iff {l : List OrderRow} {org : String} :
    orgSeqList l org = [] ↔
      ∀ r ∈ l, r.organizationId = org → r.invoiceSequence = none := by
  unfold orgSeqList
  rw [List.filterMap_eq_nil_iff]
  constructor
  · intro h r hr horg
    have := h r hr
    rw [if_pos (by simp [horg])] at this
    exact this
  · intro h r hr
    by_cases horg : r.organizationId = org
    · rw [if_pos (by simp [horg])]
      exact h r hr horg
    · rw [if_neg (by simp [horg])]

theorem foldr_max_of_toFinset_Icc {l : List Nat} {k : Nat}
    (h : l.toFinset = Finset.Icc 1 k) : l.foldr max 0 = k := by
  rcases Nat.eq_zero_or_pos k with hk | hk
  · subst hk
    have hempty : l.toFinset = ∅ := by
      rw [h]
      simp
    have : l = [] := List.toFinset_eq_empty_iff l |>.mp hempty
    rw [this]
    rfl
  · have hkmem : k ∈ l := by
      rw [← List.mem_toFinset, h]
      exact Finset.mem_Icc.mpr ⟨hk, le_refl k⟩
    have hle := mem_le_foldr_max hkmem
    rcases foldr_max_mem l with h0 | hm
    · omega
    · have : l.foldr max 0 ∈ Finset.Icc 1 k := by
        rw [← h, List.mem_toFinset]
        exact hm
      have := Finset.mem_Icc.mp this
      omega

/-- Whether an operation is an invoice generation for this organization. -/
def isGenFor (org : String) : StorageOp → Bool
  | .opGenerateInvoice o _ _ => o == org
  | _ => false

theorem genTargets_cons_of_not {org : String} {op : StorageOp} {rest : List StorageOp}
    (h : isGenFor org op = false) :
    genTargets org (op :: rest) = genTargets org rest := by
  cases op with
  | opGenerateInvoice o oid g =>
    simp only [isGenFor, beq_eq_false_iff_ne, ne_eq] at h
    simp [genTargets, h]
  | opGetOrders o => rfl
  | opGetOrder o oid => rfl
  | opAddOrder o o2 cid iids => rfl
  | opUpdateOrderStatus o oid st => rfl
  | opDeleteOrder o oid now => rfl
  | opGetChatOrders o => rfl
  | opGetChatOrder o oid => rfl
  | opAddChatOrder o co cid => rfl
  | opAttachInvoice o oid inv => rfl
  | opUpdateChatOrderDetails o oid p iids => rfl

theorem generateAndAttachInvoice_state (s : DB) (o oid : String)
    (g : ExtractedChatOrder → Nat → Invoice) :
    (generateAndAttachInvoice s o oid g).1 = s ∨
    ∃ inv n, (generateAndAttachInvoice s o oid g).1 = genWrite s o oid inv n := by
  rcases hsel : selectOrderJoin s o oid with _ | ⟨⟨r, c⟩, rest⟩
  · left
    unfold generateAndAttachInvoice
    rw [hsel]
  · right
    refine ⟨g (mapToExtractedChatOrder r (some c) (itemsOf s oid)) (nextSeqVal s o),
            nextSeqVal s o, ?_⟩
    simp only [generateAndAttachInvoice, hsel]
    split <;> rfl

theorem row_origin_of_map (l : List OrderRow) (f : OrderRow → OrderRow) (org : String)
    (hid : ∀ r, (f r).id = r.id) (horg : ∀ r, (f r).organizationId = r.organizationId)
    (hseq : ∀ r, r.organizationId = org → (f r).invoiceSequence = r.invoiceSequence) :
    ∀ r' ∈ l.map f, r'.organizationId = org →
      ∃ r ∈ l, r.id = r'.id ∧ r.organizationId = org ∧
        r.invoiceSequence = r'.invoiceSequence := by
  intro r' hr' horg'
  obtain ⟨q, hq, rfl⟩ := List.mem_map.mp hr'
  have hqorg : q.organizationId = org := by rw [← horg q]; exact horg'
  exact ⟨q, hq, (hid q).symm, hqorg, (hseq q hqorg).symm⟩

theorem updateOrderStatus_orders (s : DB) (o oid st : String) :
    ((updateOrderStatus s o oid st).1).orders =
      s.orders.map (fun r => if liveScope o oid r then { r with status := st } else r) := by
  unfold updateOrderStatus
  cases hf : s.orders.filter (liveScope o oid) <;> simp [hf]

theorem deleteOrder_orders (s : DB) (o oid now : String) :
    ((deleteOrder s o oid now).1).orders =
      s.orders.map (fun r =>
        if r.id == oid && r.organizationId == o then { r with deletedAt := some now } else r) :=
  rfl

theorem attachInvoice_orders (s : DB) (o oid : String) (inv : Invoice) :
    ((attachInvoice s o oid inv).1).orders =
      s.orders.map (fun r => if liveScope o oid r then { r with invoice := some inv } else r) := by
  unfold attachInvoice
  cases hf : s.orders.filter (liveScope o oid) <;> simp [hf]

theorem updateChatOrderDetails_orders (s : DB) (o oid : String) (p : ChatOrderPatch)
    (iids : List String) :
    ((updateChatOrderDetails s o oid p iids).1).orders =
      s.orders.map (fun r => if liveScope o oid r then applyChatPatch p r else r) := by
  unfold updateChatOrderDetails
  cases hf : s.orders.filter (liveScope o oid) <;> simp [hf]

theorem addOrder_orders (s : DB) (o : String) (ord : ExtractedOrder) (cid : String)
    (iids : List String) :
    ∃ row, ((addOrder s o ord cid iids).1).orders = s.orders ++ [row] ∧
      row.invoiceSequence = none := by
  exact ⟨_, rfl, rfl⟩

theorem addChatOrder_orders (s : DB) (o : String) (co : ExtractedChatOrder) (cid : String) :
    ∃ row, ((addChatOrder s o co cid).1).orders = s.orders ++ [row] ∧
      row.invoiceSequence = none := by
  cases hfind : s.customers.find? (lookupMatches o co.customer_name) with
  | none =>
    refine ⟨{ id := co.id, organizationId := o, customerId := cid,
              extractionType := "chat_log", itemsJson := some co.items,
              totalAmount := co.total, deliveryAddress := co.delivery_address,
              deliveryDate := co.delivery_date,
              specialInstructions := co.special_instructions,
              rawMessages := co.raw_messages, confidence := co.confidence,
              status := co.status, createdAt := co.created_at },
            by simp [addChatOrder, hfind], rfl⟩
  | some c =>
    refine ⟨{ id := co.id, organizationId := o, customerId := c.id,
              extractionType := "chat_log", itemsJson := some co.items,
              totalAmount := co.total, deliveryAddress := co.delivery_address,
              deliveryDate := co.delivery_date,
              specialInstructions := co.special_instructions,
              rawMessages := co.raw_messages, confidence := co.confidence,
              status := co.status, createdAt := co.created_at },
            by simp [addChatOrder, hfind], rfl⟩

theorem orgSeqList_single_none {row : OrderRow} {org : String}
    (h : row.invoiceSequence = none) : orgSeqList [row] org = [] := by
  simp [orgSeqList, List.filterMap_cons, h, ite_self]

/-- Any operation that is not an invoice generation for `org` leaves the
multiset of the organization's sequence values untouched. -/
theorem runOp_orgSeqList (s : DB) (org : String) (op : StorageOp)
    (h : isGenFor org op = false) :
    orgSeqList (runOp s op).orders org = orgSeqList s.orders org := by
  cases op with
  | opGetOrders o => rfl
  | opGetOrder o oid => rfl
  | opGetChatOrders o => rfl
  | opGetChatOrder o oid => rfl
  | opAddOrder o ord cid iids =>
    obtain ⟨row, horders, hseq⟩ := addOrder_orders s o ord cid iids
    show orgSeqList ((addOrder s o ord cid iids).1).orders org = _
    rw [horders, orgSeqList_append, orgSeqList_single_none hseq, List.append_nil]
  | opAddChatOrder o co cid =>
    obtain ⟨row, horders, hseq⟩ := addChatOrder_orders s o co cid
    show orgSeqList ((addChatOrder s o co cid).1).orders org = _
    rw [horders, orgSeqList_append, orgSeqList_single_none hseq, List.append_nil]
  | opUpdateOrderStatus o oid st =>
    show orgSeqList ((updateOrderStatus s o oid st).1).orders org = _
    rw [updateOrderStatus_orders]
    apply orgSeqList_map
    · intro r
      by_cases hc : liveScope o oid r <;> simp [hc]
    · intro r _
      by_cases hc : liveScope o oid r <;> simp [hc]
  | opDeleteOrder o oid now =>
    show orgSeqList ((deleteOrder s o oid now).1).orders org = _
    rw [deleteOrder_orders]
    apply orgSeqList_map
    · intro r
      by_cases hc : (r.id == oid && r.organizationId == o) = true <;> simp [hc]
    · intro r _
      by_cases hc : (r.id == oid && r.organizationId == o) = true <;> simp [hc]
  | opAttachInvoice o oid inv =>
    show orgSeqList ((attachInvoice s o oid inv).1).orders org = _
    rw [attachInvoice_orders]
    apply orgSeqList_map
    · intro r
      by_cases hc : liveScope o oid r <;> simp [hc]
    · intro r _
      by_cases hc : liveScope o oid r <;> simp [hc]
  | opUpdateChatOrderDetails o oid p iids =>
    show orgSeqList ((updateChatOrderDetails s o oid p iids).1).orders org = _
    rw [updateChatOrderDetails_orders]
    apply orgSeqList_map
    · intro r
      by_cases hc : liveScope o oid r <;> simp [hc, applyChatPatch]
    · intro r _
      by_cases hc : liveScope o oid r <;> simp [hc, applyChatPatch]
  | opGenerateInvoice o oid g =>
    have ho : o ≠ org := by simpa [isGenFor] using h
    show orgSeqList ((generateAndAttachInvoice s o oid g).1).orders org = _
    rcases generateAndAttachInvoice_state s o oid g with hstate | ⟨inv, n, hstate⟩
    · rw [hstate]
    · rw [hstate]
      show orgSeqList (s.orders.map _) org = _
      apply orgSeqList_map
      · intro r
        by_cases hc : genUpdateScope o oid r <;> simp [hc, setInvoiceFields]
      · intro r hrorg
        by_cases hc : genUpdateScope o oid r = true
        · exfalso
          have : r.organizationId = o := by
            unfold genUpdateScope at hc
            simp only [Bool.and_eq_true, beq_iff_eq] at hc
            exact hc.2
          exact ho (this ▸ hrorg)
        · simp [hc]

/-- Any operation that is not an invoice generation for `org`: every
resulting row of `org` either descends from an existing row with the same
id and sequence, or is freshly inserted with no sequence. -/
theorem runOp_row_origin (s : DB) (org : String) (op : StorageOp)
    (h : isGenFor org op = false) :
    ∀ r' ∈ (runOp s op).orders, r'.organizationId = org →
      (∃ r ∈ s.orders, r.id = r'.id ∧ r.organizationId = org ∧
        r.invoiceSequence = r'.invoiceSequence) ∨ r'.invoiceSequence = none := by
  cases op with
  | opGetOrders o =>
    intro r' hr' horg'
    exact Or.inl ⟨r', hr', rfl, horg', rfl⟩
  | opGetOrder o oid =>
    intro r' hr' horg'
    exact Or.inl ⟨r', hr', rfl, horg', rfl⟩
  | opGetChatOrders o =>
    intro r' hr' horg'
    exact Or.inl ⟨r', hr', rfl, horg', rfl⟩
  | opGetChatOrder o oid =>
    intro r' hr' horg'
    exact Or.inl ⟨r', hr', rfl, horg', rfl⟩
  | opAddOrder o ord cid iids =>
    obtain ⟨row, horders, hseq⟩ := addOrder_orders s o ord cid iids
    intro r' hr' horg'
    rw [show (runOp s (.opAddOrder o ord cid iids)).orders =
      ((addOrder s o ord cid iids).1).orders from rfl, horders] at hr'
    rcases List.mem_append.mp hr' with hold | hnew
    · exact Or.inl ⟨r', hold, rfl, horg', rfl⟩
    · right
      have : r' = row := by simpa using hnew
      rw [this, hseq]
  | opAddChatOrder o co cid =>
    obtain ⟨row, horders, hseq⟩ := addChatOrder_orders s o co cid
    intro r' hr' horg'
    rw [show (runOp s (.opAddChatOrder o co cid)).orders =
      ((addChatOrder s o co cid).1).orders from rfl, horders] at hr'
    rcases List.mem_append.mp hr' with hold | hnew
    · exact Or.inl ⟨r', hold, rfl, horg', rfl⟩
    · right
      have : r' = row := by simpa using hnew
      rw [this, hseq]
  | opUpdateOrderStatus o oid st =>
    intro r' hr' horg'
    rw [show (runOp s (.opUpdateOrderStatus o oid st)).orders =
      ((updateOrderStatus s o oid st).1).orders from rfl,
      updateOrderStatus_orders] at hr'
    exact Or.inl (row_origin_of_map s.orders _ org
      (fun r => by by_cases hc : liveScope o oid r <;> simp [hc])
      (fun r => by by_cases hc : liveScope o oid r <;> simp [hc])
      (fun r _ => by by_cases hc : liveScope o oid r <;> simp [hc]) r' hr' horg')
  | opDeleteOrder o oid now =>
    intro r' hr' horg'
    rw [show (runOp s (.opDeleteOrder o oid now)).orders =
      ((deleteOrder s o oid now).1).orders from rfl, deleteOrder_orders] at hr'
    exact Or.inl (row_origin_of_map s.orders _ org
      (fun r => by by_cases hc : (r.id == oid && r.organizationId == o) = true <;> simp [hc])
      (fun r => by by_cases hc : (r.id == oid && r.organizationId == o) = true <;> simp [hc])
      (fun r _ => by
        by_cases hc : (r.id == oid && r.organizationId == o) = true <;> simp [hc]) r' hr' horg')
  | opAttachInvoice o oid inv =>
    intro r' hr' horg'
    rw [show (runOp s (.opAttachInvoice o oid inv)).orders =
      ((attachInvoice s o oid inv).1).orders from rfl, attachInvoice_orders] at hr'
    exact Or.inl (row_origin_of_map s.orders _ org
      (fun r => by by_cases hc : liveScope o oid r <;> simp [hc])
      (fun r => by by_cases hc : liveScope o oid r <;> simp [hc])
      (fun r _ => by by_cases hc : liveScope o oid r <;> simp [hc]) r' hr' horg')
  | opUpdateChatOrderDetails o oid p iids =>
    intro r' hr' horg'
    rw [show (runOp s (.opUpdateChatOrderDetails o oid p iids)).orders =
      ((updateChatOrderDetails s o oid p iids).1).orders from rfl,
      updateChatOrderDetails_orders] at hr'
    exact Or.inl (row_origin_of_map s.orders _ org
      (fun r => by by_cases hc : liveScope o oid r <;> simp [hc, applyChatPatch])
      (fun r => by by_cases hc : liveScope o oid r <;> simp [hc, applyChatPatch])
      (fun r _ => by by_cases hc : liveScope o oid r <;> simp [hc, applyChatPatch]) r' hr' horg')
  | opGenerateInvoice o oid g =>
    have ho : o ≠ org := by simpa [isGenFor] using h
    intro r' hr' horg'
    rcases generateAndAttachInvoice_state s o oid g with hstate | ⟨inv, n, hstate⟩
    · rw [show (runOp s (.opGenerateInvoice o oid g)).orders =
        ((generateAndAttachInvoice s o oid g).1).orders from rfl, hstate] at hr'
      exact Or.inl ⟨r', hr', rfl, horg', rfl⟩
    · rw [show (runOp s (.opGenerateInvoice o oid g)).orders =
        ((generateAndAttachInvoice s o oid g).1).orders from rfl, hstate] at hr'
      refine Or.inl (row_origin_of_map s.orders _ org
        (fun r => by by_cases hc : genUpdateScope o oid r <;> simp [hc, setInvoiceFields])
        (fun r => by by_cases hc : genUpdateScope o oid r <;> simp [hc, setInvoiceFields])
        (fun r hrorg => ?_) r' hr' horg')
      by_cases hc : genUpdateScope o oid r = true
      · exfalso
        have : r.organizationId = o := by
          unfold genUpdateScope at hc
          simp only [Bool.and_eq_true, beq_iff_eq] at hc
          exact hc.2
        exact ho (this ▸ hrorg)
      · simp [hc]

theorem genWrite_row_origin (s : DB) (org oid : String) (inv : Invoice) (n : Nat) :
    ∀ r' ∈ (genWrite s org oid inv n).orders, r'.id ≠ oid →
      ∃ r ∈ s.orders, r.id = r'.id ∧ r.organizationId = r'.organizationId ∧
        r.invoiceSequence = r'.invoiceSequence := by
  intro r' hr' hne
  obtain ⟨q, hq, rfl⟩ := List.mem_map.mp hr'
  by_cases hc : genUpdateScope org oid q = true
  · exfalso
    have hqid : q.id = oid := by
      unfold genUpdateScope at hc
      simp only [Bool.and_eq_true, beq_iff_eq] at hc
      exact hc.1
    apply hne
    simp [hc, setInvoiceFields, hqid]
  · refine ⟨q, hq, ?_, ?_, ?_⟩ <;> simp [hc]

theorem orgSeqList_genWrite (l : List OrderRow) (org oid : String) (inv : Invoice) (n : Nat)
    (hnone : ∀ r ∈ l, r.organizationId = org → r.id = oid → r.invoiceSequence = none)
    (hex : ∃ r ∈ l, r.id = oid ∧ r.organizationId = org) :
    (orgSeqList (l.map (fun q =>
        if genUpdateScope org oid q then setInvoiceFields inv n q else q)) org).toFinset =
      insert n (orgSeqList l org).toFinset := by
  unfold orgSeqList
  rw [List.filterMap_map]
  induction l with
  | nil =>
    obtain ⟨r, hr, _⟩ := hex
    cases hr
  | cons a t ih =>
    have hnone' : ∀ r ∈ t, r.organizationId = org → r.id = oid → r.invoiceSequence = none :=
      fun r hr h1 h2 => hnone r (List.mem_cons_of_mem a hr) h1 h2
    rw [List.filterMap_cons, List.filterMap_cons]
    by_cases hmatch : genUpdateScope org oid a = true
    · obtain ⟨haid, haorg⟩ : a.id = oid ∧ a.organizationId = org := by
        unfold genUpdateScope at hmatch
        simp only [Bool.and_eq_true, beq_iff_eq] at hmatch
        exact hmatch
      have haseq : a.invoiceSequence = none :=
        hnone a (List.mem_cons_self a t) haorg haid
      have hnew : ((fun r => if (r.organizationId == org) = true then r.invoiceSequence
            else none) ∘ (fun q =>
              if genUpdateScope org oid q = true then setInvoiceFields inv n q else q)) a =
          some n := by
        simp [Function.comp, hmatch, setInvoiceFields, haorg]
      have hold : (if (a.organizationId == org) = true then a.invoiceSequence else none) =
          none := by
        simp [haorg, haseq]
      simp only [hnew, hold, List.toFinset_cons]
      by_cases hex2 : ∃ r ∈ t, r.id = oid ∧ r.organizationId = org
      · rw [ih hnone' hex2, Finset.insert_idem]
      · have hmapid : t.filterMap ((fun r =>
            if (r.organizationId == org) = true then r.invoiceSequence else none) ∘ (fun q =>
              if genUpdateScope org oid q = true then setInvoiceFields inv n q else q)) =
            t.filterMap (fun r =>
              if (r.organizationId == org) = true then r.invoiceSequence else none) := by
          apply List.filterMap_congr
          intro q hq
          have hqc : genUpdateScope org oid q = false := by
            cases hq2 : genUpdateScope org oid q
            · rfl
            · exfalso
              apply hex2
              obtain ⟨hqid, hqorg⟩ : q.id = oid ∧ q.organizationId = org := by
                unfold genUpdateScope at hq2
                simp only [Bool.and_eq_true, beq_iff_eq] at hq2
                exact hq2
              exact ⟨q, hq, hqid, hqorg⟩
          simp [Function.comp, hqc]
        rw [hmapid]
    · have hupd : ((fun r => if (r.organizationId == org) = true then r.invoiceSequence
          else none) ∘ (fun q =>
            if genUpdateScope org oid q = true then setInvoiceFields inv n q else q)) a =
        (if (a.organizationId == org) = true then a.invoiceSequence else none) := by
        simp [Function.comp, hmatch]
      have hex' : ∃ r ∈ t, r.id = oid ∧ r.organizationId = org := by
        obtain ⟨r, hr, hrid, hrorg⟩ := hex
        rcases List.mem_cons.mp hr with h | h
        · exfalso
          apply hmatch
          subst h
          unfold genUpdateScope
          simp [hrid, hrorg]
        · exact ⟨r, h, hrid, hrorg⟩
      have htail := ih hnone' hex'
      rw [hupd]
      by_cases ha : a.organizationId = org
      · rw [if_pos (by simp [ha])]
        cases hseq : a.invoiceSequence with
        | none => exact htail
        | some m =>
          rw [List.toFinset_cons, List.toFinset_cons, htail]
          exact Finset.Insert.comm m n _
      · rw [if_neg (by simp [ha])]
        exact htail

/-- One successful invoice generation extends the organization's sequence
set from `{1..k}` to `{1..k+1}`, and every other order row is carried over
with id, organization and sequence intact. -/
theorem gen_step (s : DB) (org oid : String) (g : ExtractedChatOrder → Nat → Invoice) (k : Nat)
    (hfin : (orgSeqList s.orders org).toFinset = Finset.Icc 1 k)
    (hnone : ∀ r ∈ s.orders, r.organizationId = org → r.id = oid → r.invoiceSequence = none)
    (hsucc : ((generateAndAttachInvoice s org oid g).2).isSome = true) :
    (orgSeqList ((generateAndAttachInvoice s org oid g).1).orders org).toFinset =
      Finset.Icc 1 (k + 1) ∧
    (∀ r' ∈ ((generateAndAttachInvoice s org oid g).1).orders, r'.id ≠ oid →
      ∃ r ∈ s.orders, r.id = r'.id ∧ r.organizationId = r'.organizationId ∧
        r.invoiceSequence = r'.invoiceSequence) := by
  rcases hselc : selectOrderJoin s org oid with _ | ⟨⟨r, c⟩, rest⟩
  · exfalso
    rw [show (generateAndAttachInvoice s org oid g) = (s, none) by
      unfold generateAndAttachInvoice; rw [hselc]] at hsucc
    simp at hsucc
  · obtain ⟨hrmem, hlive, _⟩ := selectOrderJoin_head hselc
    obtain ⟨hid, horg, _⟩ := liveScope_eq_true.mp hlive
    have hnext : nextSeqVal s org = k + 1 := by
      unfold nextSeqVal maxSeq
      rw [foldr_max_of_toFinset_Icc hfin]
    have hstate : (generateAndAttachInvoice s org oid g).1 =
        genWrite s org oid (g (mapToExtractedChatOrder r (some c) (itemsOf s oid))
          (nextSeqVal s org)) (nextSeqVal s org) := by
      simp only [generateAndAttachInvoice, hselc]
      split <;> rfl
    constructor
    · rw [hstate]
      show (orgSeqList (s.orders.map (fun q =>
        if genUpdateScope org oid q
        then setInvoiceFields (g (mapToExtractedChatOrder r (some c) (itemsOf s oid))
          (nextSeqVal s org)) (nextSeqVal s org) q
        else q)) org).toFinset = Finset.Icc 1 (k + 1)
      rw [orgSeqList_genWrite s.orders org oid _ _ hnone ⟨r, hrmem, hid, horg⟩, hfin, hnext]
      exact Nat.Icc_insert_succ_right (by omega)
    · rw [hstate]
      exact genWrite_row_origin s org oid _ _

/-- The density induction: from a state whose sequence set for `org` is
`{1..k}` and whose pending generation targets are all unsequenced and
pairwise distinct, a trace whose generations for `org` all succeed ends
with the sequence set `{1..k + N}`, `N` the number of those generations. -/
theorem seqDensity_aux (org : String) (ops : List StorageOp) :
    ∀ (s : DB) (k : Nat),
      (orgSeqList s.orders org).toFinset = Finset.Icc 1 k →
      (∀ r ∈ s.orders, r.organizationId = org → r.id ∈ genTargets org ops →
        r.invoiceSequence = none) →
      (genTargets org ops).Nodup →
      allGenSucceed org s ops = true →
      (orgSeqList (runOps s ops).orders org).toFinset =
        Finset.Icc 1 (k + (genTargets org ops).length) := by
  induction ops with
  | nil =>
    intro s k hfin _ _ _
    simpa [runOps, genTargets] using hfin
  | cons op rest ih =>
    intro s k hfin hnone hnodup hsucc
    rw [allGenSucceed, Bool.and_eq_true] at hsucc
    obtain ⟨hop, hrest⟩ := hsucc
    rw [runOps]
    by_cases hgf : isGenFor org op = true
    · cases op with
      | opGetOrders o => simp [isGenFor] at hgf
      | opGetOrder o oid => simp [isGenFor] at hgf
      | opGetChatOrders o => simp [isGenFor] at hgf
      | opGetChatOrder o oid => simp [isGenFor] at hgf
      | opAddOrder o ord cid iids => simp [isGenFor] at hgf
      | opUpdateOrderStatus o oid st => simp [isGenFor] at hgf
      | opDeleteOrder o oid now => simp [isGenFor] at hgf
      | opAddChatOrder o co cid => simp [isGenFor] at hgf
      | opAttachInvoice o oid inv => simp [isGenFor] at hgf
      | opUpdateChatOrderDetails o oid p iids => simp [isGenFor] at hgf
      | opGenerateInvoice o oid g =>
        have ho : o = org := by simpa [isGenFor] using hgf
        subst ho
        have htg : genTargets o (StorageOp.opGenerateInvoice o oid g :: rest) =
            oid :: genTargets o rest := by
          simp [genTargets]
        rw [htg] at hnone hnodup ⊢
        rw [List.nodup_cons] at hnodup
        obtain ⟨hoidnot, hnodup'⟩ := hnodup
        have hopS : ((generateAndAttachInvoice s o oid g).2).isSome = true := by
          have h2 := hop
          rw [genHeadOk, if_pos rfl] at h2
          exact h2
        obtain ⟨hfin', horigin⟩ := gen_step s o oid g k hfin
          (fun r hr h1 h2 => hnone r hr h1 (by rw [h2]; exact List.mem_cons_self _ _)) hopS
        have hrun : runOp s (StorageOp.opGenerateInvoice o oid g) =
            (generateAndAttachInvoice s o oid g).1 := rfl
        have hnone' : ∀ r' ∈ (runOp s (StorageOp.opGenerateInvoice o oid g)).orders,
            r'.organizationId = o → r'.id ∈ genTargets o rest → r'.invoiceSequence = none := by
          intro r' hr' horg' ht
          have hne : r'.id ≠ oid := fun h => hoidnot (h ▸ ht)
          rw [hrun] at hr'
          obtain ⟨r, hr, hid2, horg2, hseq2⟩ := horigin r' hr' hne
          rw [← hseq2]
          exact hnone r hr (horg2.trans horg') (by rw [hid2]; exact List.mem_cons_of_mem _ ht)
        have := ih (runOp s (StorageOp.opGenerateInvoice o oid g)) (k + 1)
          (by rw [hrun]; exact hfin') hnone' hnodup' hrest
        rw [this, List.length_cons]
        congr 1
        omega
    · have hgf' : isGenFor org op = false := by simpa using hgf
      have htg : genTargets org (op :: rest) = genTargets org rest :=
        genTargets_cons_of_not hgf'
      rw [htg] at hnone hnodup ⊢
      apply ih (runOp s op) k
      · rw [runOp_orgSeqList s org op hgf']
        exact hfin
      · intro r' hr' horg' htarget
        rcases runOp_row_origin s org op hgf' r' hr' horg' with ⟨r, hr, hid2, hro, hseq2⟩ | hns
        · rw [← hseq2]
          exact hnone r hr hro (by rw [hid2]; exact htarget)
        · exact hns
      · exact hnodup
      · exact hrest

/-- Three sequential generations in org "O": orders "A", "B", then "A"
again. -/
def c2Ops : List StorageOp :=
  [ .opGenerateInvoice "O" "A" exGen,
    .opGenerateInvoice "O" "B" exGen,
    .opGenerateInvoice "O" "A" exGen ]

/-- Counterexample to C2 as stated: starting from `c3DB` (no sequences),
the three successful sequential generations of `c2Ops` — the third targets
order "A" again — leave the sequence set at `{2, 3}`, not `{1, 2, 3}`:
re-invoicing an order vacates its old sequence value. -/
theorem seqDensity_counterexample :
    orgSeqList c3DB.orders "O" = [] ∧
    (genTargets "O" c2Ops).length = 3 ∧
    allGenSucceed "O" c3DB c2Ops = true ∧
    (orgSeqList (runOps c3DB c2Ops).orders "O").toFinset ≠ Finset.Icc 1 3 ∧
    (orgSeqList (runOps c3DB c2Ops).orders "O").toFinset = {2, 3} := by
  decide

/-- C2 (amended).  For every organization, starting from a state in which
none of its orders holds an `invoiceSequence`, after N successful
sequential `generateAndAttachInvoice` calls for that organization on
pairwise-distinct order ids — interleaved with any other storage
operations, including `deleteOrder` soft-deletes — the set of non-null
`invoiceSequence` values over the organization's orders (deleted or not)
equals `{1, …, N}`; and soft-deleting an order never removes or frees its
sequence.  (The distinct-targets requirement is forced by the
counterexample: re-invoicing an already-sequenced order reassigns its
sequence and leaves a gap.) -/
theorem invoiceSequence_density (ops : List StorageOp) (s : DB) (org : String)
    (h0 : orgSeqList s.orders org = [])
    (hdistinct : (genTargets org ops).Nodup)
    (hsucc : allGenSucceed org s ops = true) :
    (orgSeqList (runOps s ops).orders org).toFinset =
      Finset.Icc 1 (genTargets org ops).length ∧
    (∀ s2 o2 oid now, orgSeqList ((deleteOrder s2 o2 oid now).1).orders o2 =
      orgSeqList s2.orders o2) := by
  constructor
  · have hfin0 : (orgSeqList s.orders org).toFinset = Finset.Icc 1 0 := by
      rw [h0]
      simp
    have hnone0 : ∀ r ∈ s.orders, r.organizationId = org →
        r.id ∈ genTargets org ops → r.invoiceSequence = none :=
      fun r hr horg _ => orgSeqList_eq_nil_iff.mp h0 r hr horg
    have := seqDensity_aux org ops s 0 hfin0 hnone0 hdistinct hsucc
    simpa using this
  · intro s2 o2 oid now
    rw [deleteOrder_orders]
    apply orgSeqList_map
    · intro r
      by_cases hc : (r.id == oid && r.organizationId == o2) = true <;> simp [hc]
    · intro r _
      by_cases hc : (r.id == oid && r.organizationId == o2) = true <;> simp [hc]

/-- Two distinct-target generations used by the C2 witness. -/
def c2WOps : List StorageOp :=
  [ .opGenerateInvoice "O" "A" exGen, .opGenerateInvoice "O" "B" exGen ]

/-- Witness for the amended C2: two successful generations on the distinct
orders "A" and "B" of `c3DB` produce exactly the sequence set `{1, 2}`. -/
theorem invoiceSequence_density_witness :
    (orgSeqList (runOps c3DB c2WOps).orders "O").toFinset =
      Finset.Icc 1 (genTargets "O" c2WOps).length ∧
    (∀ s2 o2 oid now, orgSeqList ((deleteOrder s2 o2 oid now).1).orders o2 =
      orgSeqList s2.orders o2) :=
  invoiceSequence_density c2WOps c3DB "O" (by decide) (by decide) (by decide)

end Chat2Cash
